import Mathlib

/-!
# go-force: session / request layer

A shallow embedding of the Go package `force` (files `oauth.go`, `api.go`,
`sobjects.go`) together with theorems about it.

Conventions of the embedding

* A Go `map[string]V` is an association list `GoMap V`; indexing a missing key
  gives `none` (the comma-ok form) or the zero value (the plain form).
* A Go pointer that the code may find nil is an `Option`; dereferencing `none`
  is the run-time panic `Run.panicked`.
* A Go `error` is `Option GoError`, `none` being the nil error.
* The request executor (`Get`, `Post`, `Patch`, `Delete`,
  `requestWithContentType`) lives in a file that is not part of the sources
  at hand.  It is taken as a parameter `Executor W`, where `W` is whatever
  the remote platform and the credential store look like; every call made
  through it is appended to an event log kept by the embedding.
-/

set_option linter.dupNamespace false

namespace GoForce

/-! ## Go maps -/

/-- A Go map with string keys, as an association list with unique keys. -/
abbrev GoMap (V : Type) := List (String × V)

/-- The comma-ok index expression: the value under key k, if any. -/
def mapIndex {V : Type} (m : GoMap V) (k : String) : Option V :=
  List.lookup k m

/-- The assignment m[k] = v: any previous binding of k is replaced. -/
def mapStore {V : Type} (m : GoMap V) (k : String) (v : V) : GoMap V :=
  (k, v) :: m.filter (fun p => p.1 != k)

/-- The plain index expression on a map of strings: a missing key gives the
empty string. -/
def mapIndexString (m : GoMap String) (k : String) : String :=
  (mapIndex m k).getD ""

/-! ## Errors -/

/-- A Go error value, identified by its message. -/
structure GoError where
  message : String
  deriving DecidableEq, Repr

/-- The call errors.New of the Go standard library. -/
def errorsNew (s : String) : GoError := ⟨s⟩

/-- Modelled from the spec: the type ApiError is declared in a file that is
not among the sources; the spec describes an entry of the error envelope as
an error code, a message and the fields implicated. -/
structure ApiError where
  Fields : List String
  Message : String
  ErrorCode : String
  deriving DecidableEq, Repr

/-- Modelled from the spec: the API error envelope is an ordered sequence of
entries. -/
abbrev ApiErrors := List ApiError

/-! ## oauth.go -/

def invalidSessionErrorCode : String := "INVALID_SESSION_ID"

structure ForceOauth where
  AccessToken : String
  RefreshToken : String
  InstanceUrl : String
  Id : String
  IssuedAt : String
  Signature : String
  TokenType : String
  Scope : String
  clientId : String
  clientSecret : String
  userName : String
  password : String
  securityToken : String
  environment : String
  deriving DecidableEq, Repr

/-- The method (oauth *ForceOauth) Expired of oauth.go: the loop returns true
at the first entry whose code is the invalid-session code, false when the
range is exhausted.  The receiver is a pointer and may be nil. -/
def Expired (oauth : Option ForceOauth) : ApiErrors → Bool
  | [] => false
  | err :: rest =>
    if err.ErrorCode == invalidSessionErrorCode then true else Expired oauth rest

/-! ## api.go: constants and data -/

def sObjectsKey : String := "sobjects"
def sObjectKey : String := "sobject"
def sObjectDescribeKey : String := "describe"
def rowTemplateKey : String := "rowTemplate"
def idKey : String := "\x7bID\x7d"

structure Version where
  Label : String
  URL : String
  Version : String
  deriving DecidableEq, Repr, Inhabited

structure SObjectMetaData where
  Name : String
  Label : String
  KeyPrefix : String
  LabelPlural : String
  Custom : Bool
  Layoutable : Bool
  Activateable : Bool
  URLs : GoMap String
  Searchable : Bool
  Updateable : Bool
  Createable : Bool
  DeprecatedAndHidden : Bool
  CustomSetting : Bool
  Deletable : Bool
  FeedEnabled : Bool
  Mergeable : Bool
  Queryable : Bool
  Replicateable : Bool
  Retrieveable : Bool
  Undeletable : Bool
  Triggerable : Bool
  deriving DecidableEq, Repr, Inhabited

/-- The struct SObjectField of api.go (Type_ is its field Type, a reserved
word here).  Only Name and Type are read by the code; of the remaining
passive fields the label and two flags are kept, the numeric and nested
ones are left out. -/
structure SObjectField where
  Name : String
  Type_ : String
  Label : String
  Custom : Bool
  Nillable : Bool
  deriving DecidableEq, Repr, Inhabited

/-- The struct SObjectDescription of api.go, without the nested record-type
and child-relationship lists, which the code never reads.  AllFields is the
derived field; it carries the tag json:"-" and so is never decoded. -/
structure SObjectDescription where
  Name : String
  Fields : List SObjectField
  KeyPrefix : String
  Layoutable : Bool
  Activateable : Bool
  LabelPlural : String
  Custom : Bool
  Label : String
  Searchable : Bool
  URLs : GoMap String
  Queryable : Bool
  Deletable : Bool
  Updateable : Bool
  Createable : Bool
  AllFields : String
  deriving DecidableEq, Repr, Inhabited

structure SObjectApiResponse where
  Encoding : String
  MaxBatchSize : Int
  SObjects : List SObjectMetaData
  deriving DecidableEq, Repr, Inhabited

/-- The struct ForceApi of api.go.  The OAuth pointer, the logger and the log
prefix belong to the request executor and are part of its world. -/
structure ForceApi where
  apiVersion : String
  apiVersions : List Version
  apiResources : GoMap String
  apiSObjects : GoMap SObjectMetaData
  apiSObjectDescriptions : GoMap SObjectDescription
  apiMaxBatchSize : Int
  deriving DecidableEq, Repr, Inhabited

/-! ## sobjects.go: data -/

/-- The interface SObject: a record is known to the package only through
the strings its methods ApiName and ExternalIdApiName return. -/
structure SObject where
  ApiName : String
  ExternalIdApiName : String
  deriving DecidableEq, Repr, Inhabited

/-- The struct SObjectError; the untyped ExtendedErrorDetails is left out. -/
structure SObjectError where
  Message : String
  Fields : List String
  StatusCode : String
  deriving DecidableEq, Repr, Inhabited

structure SObjectResponse where
  Id : String
  Errors : List SObjectError
  Success : Bool
  deriving DecidableEq, Repr, Inhabited

structure CreateJobRequest where
  Operation : String
  Object : String
  ContentType : String
  deriving DecidableEq, Repr, Inhabited

structure CloseJobRequest where
  State : String
  deriving DecidableEq, Repr, Inhabited

/-- The struct CreateJobResponse, without its counters and timestamps: the
code reads only ID. -/
structure CreateJobResponse where
  ConcurrencyMode : String
  ContentType : String
  ID : String
  Object : String
  Operation : String
  State : String
  deriving DecidableEq, Repr, Inhabited

structure CreateBatchResponse where
  ApexProcessingTime : Int
  APIActiveProcessingTime : Int
  CreatedDate : String
  ID : String
  JobID : String
  NumberRecordsFailed : Int
  NumberRecordsProcessed : Int
  State : String
  SystemModstamp : String
  TotalProcessingTime : Int
  deriving DecidableEq, Repr, Inhabited

/-! ## The request executor -/

/-- What a request carries in its body. -/
inductive Payload where
  | none
  | createJob (r : CreateJobRequest)
  | closeJob (r : CloseJobRequest)
  | records (rs : List SObject)
  | record (r : SObject)
  | text (s : String)
  deriving DecidableEq, Repr

/-- A call handed to the request executor: verb, path, query parameters
(a nil and an empty url.Values are both the empty list), body and, for
requestWithContentType, the explicit content type. -/
structure Request where
  verb : String
  path : String
  params : GoMap (List String)
  payload : Payload
  contentType : Option String
  deriving DecidableEq, Repr

/-- What an executor call left in its output destination, with its error. -/
inductive Reply where
  | description (d : SObjectDescription) (err : Option GoError)
  | job (j : CreateJobResponse) (err : Option GoError)
  | batch (b : CreateBatchResponse) (err : Option GoError)
  | results (rs : List SObjectResponse) (err : Option GoError)
  | response (r : SObjectResponse) (err : Option GoError)
  | plain (u : Unit) (err : Option GoError)
  | versions (vs : List Version) (err : Option GoError)
  | resources (m : GoMap String) (err : Option GoError)
  | objects (list : SObjectApiResponse) (err : Option GoError)
  deriving DecidableEq, Repr

/-- The functions of api.go and sobjects.go that call the executor. -/
inductive Caller where
  | DescribeSObject
  | GetApiSObjectDescription
  | GetSObject
  | InsertSObject
  | UpdateSObject
  | DeleteSObject
  | GetSObjectByExternalId
  | UpsertSObjectByExternalId
  | DeleteSObjectByExternalId
  | createJob
  | closeJob
  | createQueryBatch
  | createInsertBatch
  | getBatchStatus
  | getBatchResults
  | getApiVersions
  | getApiResources
  | getApiSObjects
  | getApiSObjectDescriptions
  deriving DecidableEq, Repr

/-- One executor call as recorded in the log: the function that made it,
the request it passed and what came back. -/
structure Event where
  caller : Caller
  req : Request
  reply : Reply
  deriving DecidableEq, Repr

/-- Modelled from the spec: the request executor (Get, Post, Patch, Delete,
requestWithContentType) is not among the sources.  Per the spec it builds the
request, talks to the remote platform, may refresh the credentials, and
either fills the output destination or returns an error.  It is a parameter:
one entry per type of output destination, each mapping the request and the
current world to the content of the destination, the error and the next
world.  The destinations of versions and resources are fields of the client
that may already hold a value, so these two entries also take the content
the destination has before the call. -/
structure Executor (W : Type) where
  description : Request → W → (SObjectDescription × Option GoError) × W
  job : Request → W → (CreateJobResponse × Option GoError) × W
  batch : Request → W → (CreateBatchResponse × Option GoError) × W
  results : Request → W → (List SObjectResponse × Option GoError) × W
  response : Request → W → (SObjectResponse × Option GoError) × W
  record : Request → W → (Unit × Option GoError) × W
  discard : Request → W → (Unit × Option GoError) × W
  versions : Request → List Version → W → (List Version × Option GoError) × W
  resources : Request → GoMap String → W → (GoMap String × Option GoError) × W
  objects : Request → W → (SObjectApiResponse × Option GoError) × W

/-- The world of the executor together with the log of the calls made. -/
structure Net (W : Type) where
  world : W
  log : List Event

/-- One call through the executor: run it, record it. -/
def invoke {W α : Type} (caller : Caller) (run : Request → W → (α × Option GoError) × W)
    (wrap : α → Option GoError → Reply) (req : Request) (net : Net W) :
    (α × Option GoError) × Net W :=
  let r := run req net.world
  (r.1, ⟨r.2, net.log ++ [⟨caller, req, wrap r.1.1 r.1.2⟩]⟩)

def getReq (path : String) (params : GoMap (List String)) : Request :=
  ⟨"GET", path, params, Payload.none, none⟩

def postReq (path : String) (params : GoMap (List String)) (payload : Payload) : Request :=
  ⟨"POST", path, params, payload, none⟩

def patchReq (path : String) (params : GoMap (List String)) (payload : Payload) : Request :=
  ⟨"PATCH", path, params, payload, none⟩

def deleteReq (path : String) (params : GoMap (List String)) : Request :=
  ⟨"DELETE", path, params, Payload.none, none⟩

/-- The outcome of a Go call that may panic. -/
inductive Run (α : Type) where
  | panicked
  | returned (a : α)
  deriving DecidableEq, Repr

/-! ## Strings -/

/-- The call strings.Join of the Go standard library. -/
def stringsJoin : List String → String → String
  | [], _ => ""
  | [a], _ => a
  | a :: b :: rest, sep => a ++ sep ++ stringsJoin (b :: rest) sep

/-- Replace the first occurrence of old in a list of characters. -/
def replaceFirstChars (old new : List Char) : List Char → List Char
  | [] => if old.isEmpty then new else []
  | c :: cs =>
    if old.isPrefixOf (c :: cs) then new ++ (c :: cs).drop old.length
    else c :: replaceFirstChars old new cs

/-- The call strings.Replace(s, old, new, 1): only the first occurrence of
old is replaced. -/
def stringsReplaceFirst (s old new : String) : String :=
  ⟨replaceFirstChars old.data new.data s.data⟩

/-- The call fmt.Sprintf("%v/%v/%v", a, b, c) on three strings. -/
def sprintfPath (a b c : String) : String :=
  a ++ "/" ++ b ++ "/" ++ c

/-! ## sobjects.go: DescribeSObject -/

/-- The range loop of DescribeSObject over resp.Fields (lines 105 to 113):
index is the position of field in the whole slice, length the length of the
slice, buf the content of the buffer allFields. -/
def allFieldsLoop (length : Nat) : Nat → List SObjectField → String → String
  | _, [], buf => buf
  | index, field :: rest, buf =>
    if field.Type_ != "location" then
      let buf1 := if index > 0 && index < length then buf ++ ", " else buf
      allFieldsLoop length (index + 1) rest (buf1 ++ field.Name)
    else
      allFieldsLoop length (index + 1) rest buf

/-- Lines 102 to 116 of DescribeSObject: AllFields is assigned only when
the description has at least one field. -/
def computeAllFields (resp : SObjectDescription) : SObjectDescription :=
  let length := resp.Fields.length
  if length > 0 then
    { resp with AllFields := allFieldsLoop length 0 resp.Fields "" }
  else resp

/-- A description as the executor leaves it in a fresh destination: the
field AllFields is tagged json:"-", so it keeps the zero value. -/
def decoded (d : SObjectDescription) : SObjectDescription :=
  { d with AllFields := "" }

/-- The method DescribeSObject of sobjects.go.  Returns the pair (resp, err),
the client after the call and the executor state. -/
def DescribeSObject {W : Type} (E : Executor W) (forceApi : ForceApi) (inp : SObject)
    (net : Net W) : (Option SObjectDescription × Option GoError) × ForceApi × Net W :=
  match mapIndex forceApi.apiSObjectDescriptions inp.ApiName with
  | some resp => ((some resp, none), forceApi, net)
  | none =>
    match mapIndex forceApi.apiSObjects inp.ApiName with
    | none =>
      ((none, some ⟨"Unable to find metadata for object: " ++ inp.ApiName⟩), forceApi, net)
    | some sObjectMetaData =>
      let uri := mapIndexString sObjectMetaData.URLs sObjectDescribeKey
      let r := invoke Caller.DescribeSObject E.description Reply.description (getReq uri []) net
      match r.1.2 with
      | some err => ((some (decoded r.1.1), some err), forceApi, r.2)
      | none =>
        let resp := computeAllFields (decoded r.1.1)
        ((some resp, none),
          { forceApi with
            apiSObjectDescriptions :=
              mapStore forceApi.apiSObjectDescriptions inp.ApiName resp },
          r.2)

/-! ## api.go: GetApiSObjectDescription -/

/-- The method GetApiSObjectDescription of api.go. -/
def GetApiSObjectDescription {W : Type} (E : Executor W) (forceApi : ForceApi)
    (name : String) (net : Net W) :
    (Option SObjectDescription × Option GoError) × ForceApi × Net W :=
  match mapIndex forceApi.apiSObjectDescriptions name with
  | some desc => ((some desc, none), forceApi, net)
  | none =>
    match mapIndex forceApi.apiSObjects name with
    | some sObject =>
      let uri := mapIndexString sObject.URLs sObjectDescribeKey
      let r := invoke Caller.GetApiSObjectDescription E.description Reply.description (getReq uri []) net
      match r.1.2 with
      | some err => ((none, some err), forceApi, r.2)
      | none =>
        let desc := decoded r.1.1
        ((some desc, none),
          { forceApi with
            apiSObjectDescriptions := mapStore forceApi.apiSObjectDescriptions name desc },
          r.2)
    | none => ((none, some (errorsNew "Not found")), forceApi, net)

/-! ## sobjects.go: record operations

The expression forceApi.apiSObjects[name].URLs[key] indexes a map of
pointers: for a missing name the index gives the nil pointer and the field
selection panics. -/

/-- The query parameters built by GetSObject and GetSObjectByExternalId. -/
def fieldsParams (fields : List String) : GoMap (List String) :=
  if fields.length > 0 then [("fields", [stringsJoin fields ","])] else []

def GetSObject {W : Type} (E : Executor W) (forceApi : ForceApi) (id : String)
    (fields : List String) (out : SObject) (net : Net W) : Run (Option GoError) × Net W :=
  match mapIndex forceApi.apiSObjects out.ApiName with
  | none => (Run.panicked, net)
  | some sObject =>
    let uri := stringsReplaceFirst (mapIndexString sObject.URLs rowTemplateKey) idKey id
    let params := fieldsParams fields
    let r := invoke Caller.GetSObject E.record Reply.plain (getReq uri params) net
    (Run.returned r.1.2, r.2)

def InsertSObject {W : Type} (E : Executor W) (forceApi : ForceApi) (inp : SObject)
    (net : Net W) : Run (Option SObjectResponse × Option GoError) × Net W :=
  match mapIndex forceApi.apiSObjects inp.ApiName with
  | some sObject =>
    let uri := mapIndexString sObject.URLs sObjectKey
    let r := invoke Caller.InsertSObject E.response Reply.response (postReq uri [] (Payload.record inp)) net
    (Run.returned (some r.1.1, r.1.2), r.2)
  | none => (Run.returned (none, some (errorsNew "Not found")), net)

def UpdateSObject {W : Type} (E : Executor W) (forceApi : ForceApi) (id : String)
    (inp : SObject) (net : Net W) : Run (Option GoError) × Net W :=
  match mapIndex forceApi.apiSObjects inp.ApiName with
  | none => (Run.panicked, net)
  | some sObject =>
    let uri := stringsReplaceFirst (mapIndexString sObject.URLs rowTemplateKey) idKey id
    let r := invoke Caller.UpdateSObject E.discard Reply.plain (patchReq uri [] (Payload.record inp)) net
    (Run.returned r.1.2, r.2)

def DeleteSObject {W : Type} (E : Executor W) (forceApi : ForceApi) (id : String)
    (inp : SObject) (net : Net W) : Run (Option GoError) × Net W :=
  match mapIndex forceApi.apiSObjects inp.ApiName with
  | none => (Run.panicked, net)
  | some sObject =>
    let uri := stringsReplaceFirst (mapIndexString sObject.URLs rowTemplateKey) idKey id
    let r := invoke Caller.DeleteSObject E.discard Reply.plain (deleteReq uri []) net
    (Run.returned r.1.2, r.2)

def GetSObjectByExternalId {W : Type} (E : Executor W) (forceApi : ForceApi) (id : String)
    (fields : List String) (out : SObject) (net : Net W) : Run (Option GoError) × Net W :=
  match mapIndex forceApi.apiSObjects out.ApiName with
  | none => (Run.panicked, net)
  | some sObject =>
    let uri := sprintfPath (mapIndexString sObject.URLs sObjectKey) out.ExternalIdApiName id
    let params := fieldsParams fields
    let r := invoke Caller.GetSObjectByExternalId E.record Reply.plain (getReq uri params) net
    (Run.returned r.1.2, r.2)

def UpsertSObjectByExternalId {W : Type} (E : Executor W) (forceApi : ForceApi) (id : String)
    (inp : SObject) (net : Net W) :
    Run (Option SObjectResponse × Option GoError) × Net W :=
  match mapIndex forceApi.apiSObjects inp.ApiName with
  | none => (Run.panicked, net)
  | some sObject =>
    let uri := sprintfPath (mapIndexString sObject.URLs sObjectKey) inp.ExternalIdApiName id
    let r := invoke Caller.UpsertSObjectByExternalId E.response Reply.response (patchReq uri [] (Payload.record inp)) net
    (Run.returned (some r.1.1, r.1.2), r.2)

def DeleteSObjectByExternalId {W : Type} (E : Executor W) (forceApi : ForceApi) (id : String)
    (inp : SObject) (net : Net W) : Run (Option GoError) × Net W :=
  match mapIndex forceApi.apiSObjects inp.ApiName with
  | none => (Run.panicked, net)
  | some sObject =>
    let uri := sprintfPath (mapIndexString sObject.URLs sObjectKey) inp.ExternalIdApiName id
    let r := invoke Caller.DeleteSObjectByExternalId E.discard Reply.plain (deleteReq uri []) net
    (Run.returned r.1.2, r.2)

/-! ## sobjects.go: the bulk helpers

Each helper returns (nil, err) or (jobResp, nil); the pair is an Except. -/

def createJobReq (table operation contentType : String) : Request :=
  postReq "/services/async/37.0/job" [] (Payload.createJob ⟨operation, table, contentType⟩)

def closeJobReq (jobID : String) : Request :=
  postReq ("/services/async/37.0/job/" ++ jobID) [] (Payload.closeJob ⟨"Closed"⟩)

def createQueryBatchReq (jobID query : String) : Request :=
  ⟨"POST", "/services/async/37.0/job/" ++ jobID ++ "/batch", [], Payload.text query,
    some "text/csv"⟩

def createInsertBatchReq (jobID : String) (inp : List SObject) : Request :=
  postReq ("/services/async/37.0/job/" ++ jobID ++ "/batch") [] (Payload.records inp)

def getBatchStatusReq (jobID batchID : String) : Request :=
  getReq ("/services/async/37.0/job/" ++ jobID ++ "/batch/" ++ batchID) []

def getBatchResultsReq (jobID batchID : String) : Request :=
  getReq ("/services/async/37.0/job/" ++ jobID ++ "/batch/" ++ batchID ++ "/result") []

/-- The shape shared by the helpers: a nil error gives the decoded value,
any other error gives nil and that error. -/
def orError {α W : Type} (r : (α × Option GoError) × Net W) : Except GoError α × Net W :=
  match r.1.2 with
  | some err => (Except.error err, r.2)
  | none => (Except.ok r.1.1, r.2)

def createJob {W : Type} (E : Executor W) (table operation contentType : String)
    (net : Net W) : Except GoError CreateJobResponse × Net W :=
  orError (invoke Caller.createJob E.job Reply.job (createJobReq table operation contentType) net)

def closeJob {W : Type} (E : Executor W) (jobID : String) (net : Net W) :
    Except GoError CreateJobResponse × Net W :=
  orError (invoke Caller.closeJob E.job Reply.job (closeJobReq jobID) net)

def createQueryBatch {W : Type} (E : Executor W) (jobID query : String) (net : Net W) :
    Except GoError CreateBatchResponse × Net W :=
  orError (invoke Caller.createQueryBatch E.batch Reply.batch (createQueryBatchReq jobID query) net)

def createInsertBatch {W : Type} (E : Executor W) (jobID : String) (inp : List SObject)
    (net : Net W) : Except GoError CreateBatchResponse × Net W :=
  orError (invoke Caller.createInsertBatch E.batch Reply.batch (createInsertBatchReq jobID inp) net)

def getBatchStatus {W : Type} (E : Executor W) (jobID batchID : String) (net : Net W) :
    Except GoError CreateBatchResponse × Net W :=
  orError (invoke Caller.getBatchStatus E.batch Reply.batch (getBatchStatusReq jobID batchID) net)

def getBatchResults {W : Type} (E : Executor W) (jobID batchID : String) (net : Net W) :
    Except GoError (List SObjectResponse) × Net W :=
  orError (invoke Caller.getBatchResults E.results Reply.results (getBatchResultsReq jobID batchID) net)

/-! ## sobjects.go: the bulk operations

The loop of lines 161 to 172 (and 211 to 222) has no bound of its own.  The
embedding runs it with a fuel, one unit per status poll; when the fuel runs
out the operation has not returned yet: its result is none and the log holds
the calls made so far.  The sleep between polls is not modelled. -/

/-- The result of a bulk operation: the pair (results, err), a nil slice
being none. -/
abbrev BulkResult := Option (List SObjectResponse) × Option GoError

/-- The poll loop: res is the last batch response seen.  The loop ends with
the response whose state is Completed, or returns early with an error. -/
def pollLoop {W : Type} (E : Executor W) (jobID batchID : String) :
    Nat → CreateBatchResponse → Net W → Option (Except GoError CreateBatchResponse) × Net W
  | fuel, res, net =>
    if res.State != "Completed" then
      match fuel with
      | 0 => (none, net)
      | fuel + 1 =>
        match getBatchStatus E jobID batchID net with
        | (Except.error err, net1) => (some (Except.error err), net1)
        | (Except.ok res1, net1) =>
          if res1.State == "Failed" then
            (some (Except.error (errorsNew "Failed import")), net1)
          else pollLoop E jobID batchID fuel res1 net1
    else (some (Except.ok res), net)

/-- Lines 159 to 183 (and 209 to 233): from the batch response to the return
value, before the deferred closeJob runs. -/
def afterSubmit {W : Type} (E : Executor W) (fuel : Nat) (jobID : String)
    (res : CreateBatchResponse) (net : Net W) : Option BulkResult × Net W :=
  let batchID := res.ID
  match pollLoop E jobID batchID fuel res net with
  | (none, net1) => (none, net1)
  | (some (Except.error err), net1) => (some (none, some err), net1)
  | (some (Except.ok res1), net1) =>
    if res1.State == "Completed" then
      match getBatchResults E jobID batchID net1 with
      | (Except.error err, net2) => (some (none, some err), net2)
      | (Except.ok results, net2) => (some (some results, none), net2)
    else (some (none, some (errorsNew "Unknown error")), net1)

/-- The deferred call closeJob(job.ID): it runs when the function returns,
after the return value is fixed, and its own result is dropped. -/
def deferCloseJob {W : Type} (E : Executor W) (jobID : String)
    (r : Option BulkResult × Net W) : Option BulkResult × Net W :=
  match r with
  | (none, net) => (none, net)
  | (some result, net) => (some result, (closeJob E jobID net).2)

def BulkQuerySObjects {W : Type} (E : Executor W) (fuel : Nat) (forceApi : ForceApi)
    (table query : String) (net : Net W) : Option BulkResult × Net W :=
  match mapIndex forceApi.apiSObjects table with
  | some _ =>
    match createJob E table "query" "CSV" net with
    | (Except.error err, net1) => (some (none, some err), net1)
    | (Except.ok job, net1) =>
      deferCloseJob E job.ID
        (match createQueryBatch E job.ID query net1 with
         | (Except.error err, net2) => (some (none, some err), net2)
         | (Except.ok res, net2) => afterSubmit E fuel job.ID res net2)
  | none => (some (none, some (errorsNew "Not found")), net)

def BulkInsertSObjects {W : Type} (E : Executor W) (fuel : Nat) (forceApi : ForceApi)
    (table : String) (inp : List SObject) (net : Net W) : Option BulkResult × Net W :=
  match mapIndex forceApi.apiSObjects table with
  | some _ =>
    match createJob E table "insert" "JSON" net with
    | (Except.error err, net1) => (some (none, some err), net1)
    | (Except.ok job, net1) =>
      deferCloseJob E job.ID
        (match createInsertBatch E job.ID inp net1 with
         | (Except.error err, net2) => (some (none, some err), net2)
         | (Except.ok res, net2) => afterSubmit E fuel job.ID res net2)
  | none => (some (none, some (errorsNew "Not found")), net)

/-! ## A scripted executor

The remote platform as a list of replies still to be given: every call takes
the next one.  A reply of the wrong kind, or none left, is a transport
error. -/

def transportError : GoError := ⟨"transport error"⟩

def scripted : Executor (List Reply) where
  description := fun _ w =>
    match w with
    | Reply.description d err :: rest => ((d, err), rest)
    | _ => ((default, some transportError), w.tail)
  job := fun _ w =>
    match w with
    | Reply.job j err :: rest => ((j, err), rest)
    | _ => ((default, some transportError), w.tail)
  batch := fun _ w =>
    match w with
    | Reply.batch b err :: rest => ((b, err), rest)
    | _ => ((default, some transportError), w.tail)
  results := fun _ w =>
    match w with
    | Reply.results rs err :: rest => ((rs, err), rest)
    | _ => (([], some transportError), w.tail)
  response := fun _ w =>
    match w with
    | Reply.response r err :: rest => ((r, err), rest)
    | _ => ((default, some transportError), w.tail)
  record := fun _ w =>
    match w with
    | Reply.plain u err :: rest => ((u, err), rest)
    | _ => (((), some transportError), w.tail)
  discard := fun _ w =>
    match w with
    | Reply.plain u err :: rest => ((u, err), rest)
    | _ => (((), some transportError), w.tail)
  versions := fun _ cur w =>
    match w with
    | Reply.versions vs err :: rest => ((vs, err), rest)
    | _ => ((cur, some transportError), w.tail)
  resources := fun _ cur w =>
    match w with
    | Reply.resources m err :: rest => ((m, err), rest)
    | _ => ((cur, some transportError), w.tail)
  objects := fun _ w =>
    match w with
    | Reply.objects list err :: rest => ((list, err), rest)
    | _ => ((default, some transportError), w.tail)

/-! ## Concrete clients, records and platforms -/

def exLocation : SObjectField :=
  { (default : SObjectField) with Name := "Geo", Type_ := "location" }

def exId : SObjectField := { (default : SObjectField) with Name := "Id", Type_ := "id" }

def exName : SObjectField := { (default : SObjectField) with Name := "Name", Type_ := "string" }

def exAccountMeta : SObjectMetaData :=
  { (default : SObjectMetaData) with
    Name := "Account"
    URLs := [("sobject", "/services/data/v37.0/sobjects/Account"),
             ("describe", "/services/data/v37.0/sobjects/Account/describe"),
             ("rowTemplate", "/services/data/v37.0/sobjects/Account/\x7bID\x7d")] }

/-- A client that knows the object Account and has described nothing yet. -/
def exApi : ForceApi :=
  { (default : ForceApi) with apiSObjects := [("Account", exAccountMeta)] }

def exAccount : SObject := ⟨"Account", "Ext__c"⟩

/-- A record of an object type the client has never heard of. -/
def exUnknown : SObject := ⟨"Missing__c", "Ext__c"⟩

/-- A description as fetched whose first field is the geolocation one. -/
def exLocationFirst : SObjectDescription :=
  { (default : SObjectDescription) with Name := "Account", Fields := [exLocation, exId, exName] }

def exContactMeta : SObjectMetaData :=
  { (default : SObjectMetaData) with
    Name := "Contact"
    URLs := [("sobject", "/services/data/v37.0/sobjects/Contact"),
             ("describe", "/services/data/v37.0/sobjects/Contact/describe"),
             ("rowTemplate", "/services/data/v37.0/sobjects/Contact/\x7bID\x7d")] }

def exContactApi : ForceApi :=
  { (default : ForceApi) with apiSObjects := [("Contact", exContactMeta)] }

def exContact : SObject := ⟨"Contact", "Email__c"⟩

/-- The description of Account as the platform sends it. -/
def exAccountDescription : SObjectDescription :=
  { (default : SObjectDescription) with Name := "Account", Fields := [exId, exLocation, exName] }

/-- A platform that answers one describe call. -/
def exDescribeNet : Net (List Reply) := ⟨[Reply.description exAccountDescription none], []⟩

def exJob : CreateJobResponse :=
  { (default : CreateJobResponse) with ID := "750x", State := "Open" }

def exBatch (state : String) : CreateBatchResponse :=
  { (default : CreateBatchResponse) with ID := "751x", JobID := "750x", State := state }

/-- Two per-record results, the second a rejected record. -/
def exResults : List SObjectResponse :=
  [⟨"001A", [], true⟩,
   ⟨"", [⟨"Required fields are missing", ["Name"], "REQUIRED_FIELD_MISSING"⟩], false⟩]

/-- A platform that takes the batch as Queued, reports InProgress twice and
then Completed, hands out the results, and answers closeJob with the given
error. -/
def exLifecycleNet (closeErr : Option GoError) : Net (List Reply) :=
  ⟨[Reply.job exJob none, Reply.batch (exBatch "Queued") none,
    Reply.batch (exBatch "InProgress") none, Reply.batch (exBatch "InProgress") none,
    Reply.batch (exBatch "Completed") none, Reply.results exResults none,
    Reply.job exJob closeErr], []⟩

/-- A platform whose second status report is Failed. -/
def exFailedNet : Net (List Reply) :=
  ⟨[Reply.job exJob none, Reply.batch (exBatch "Queued") none,
    Reply.batch (exBatch "InProgress") none, Reply.batch (exBatch "Failed") none,
    Reply.job exJob none], []⟩

/-- A platform whose first status report is NotProcessed and whose second is
Completed. -/
def exNotProcessedNet : Net (List Reply) :=
  ⟨[Reply.job exJob none, Reply.batch (exBatch "Queued") none,
    Reply.batch (exBatch "NotProcessed") none, Reply.batch (exBatch "Completed") none,
    Reply.results exResults none, Reply.job exJob none], []⟩

/-! ## Traces of the bulk operations -/

/-- The log entry of a status poll that came back without error. -/
def pollEvent (req : Request) (r : CreateBatchResponse) (err : Option GoError) : Event :=
  ⟨Caller.getBatchStatus, req, Reply.batch r err⟩

/-- The shape of the log the poll loop writes, and the outcome that goes with
it: res is the response the loop starts from, the list holds the polls made,
the outcome is none while the loop is still running. -/
inductive PollRun (req : Request) :
    CreateBatchResponse → List Event → Option (Except GoError CreateBatchResponse) → Prop where
  | completed (res : CreateBatchResponse) (h : res.State = "Completed") :
      PollRun req res [] (some (Except.ok res))
  | pending (res : CreateBatchResponse) (h : res.State ≠ "Completed") :
      PollRun req res [] none
  | pollError (res r : CreateBatchResponse) (err : GoError) (h : res.State ≠ "Completed") :
      PollRun req res [pollEvent req r (some err)] (some (Except.error err))
  | pollFailed (res r : CreateBatchResponse) (h : res.State ≠ "Completed")
      (hr : r.State = "Failed") :
      PollRun req res [pollEvent req r none] (some (Except.error (errorsNew "Failed import")))
  | step (res r : CreateBatchResponse) (evs : List Event)
      (out : Option (Except GoError CreateBatchResponse)) (h : res.State ≠ "Completed")
      (hr : r.State ≠ "Failed") (tail : PollRun req r evs out) :
      PollRun req res (pollEvent req r none :: evs) out

/-- The shape of the log a bulk operation writes, and the result that goes
with it; submit is the function that submits the batch.  The result is none
while the operation is still polling. -/
inductive BulkShape (submit : Caller) : Option BulkResult → List Event → Prop where
  | notFound : BulkShape submit (some (none, some (errorsNew "Not found"))) []
  | jobError (jreq : Request) (j : CreateJobResponse) (err : GoError) :
      BulkShape submit (some (none, some err))
        [⟨Caller.createJob, jreq, Reply.job j (some err)⟩]
  | submitError (jreq sreq : Request) (job : CreateJobResponse) (b : CreateBatchResponse)
      (err : GoError) (cj : CreateJobResponse) (cerr : Option GoError) :
      BulkShape submit (some (none, some err))
        [⟨Caller.createJob, jreq, Reply.job job none⟩,
         ⟨submit, sreq, Reply.batch b (some err)⟩,
         ⟨Caller.closeJob, closeJobReq job.ID, Reply.job cj cerr⟩]
  | polling (jreq sreq preq : Request) (job : CreateJobResponse) (b0 : CreateBatchResponse)
      (pevs : List Event) (hp : PollRun preq b0 pevs none) :
      BulkShape submit none
        (⟨Caller.createJob, jreq, Reply.job job none⟩ ::
         ⟨submit, sreq, Reply.batch b0 none⟩ :: pevs)
  | pollStop (jreq sreq preq : Request) (job : CreateJobResponse) (b0 : CreateBatchResponse)
      (pevs : List Event) (err : GoError) (cj : CreateJobResponse) (cerr : Option GoError)
      (hp : PollRun preq b0 pevs (some (Except.error err))) :
      BulkShape submit (some (none, some err))
        (⟨Caller.createJob, jreq, Reply.job job none⟩ ::
         ⟨submit, sreq, Reply.batch b0 none⟩ :: pevs ++
         [⟨Caller.closeJob, closeJobReq job.ID, Reply.job cj cerr⟩])
  | resultsError (jreq sreq preq rreq : Request) (job : CreateJobResponse)
      (b0 fin : CreateBatchResponse) (pevs : List Event) (rs : List SObjectResponse)
      (err : GoError) (cj : CreateJobResponse) (cerr : Option GoError)
      (hp : PollRun preq b0 pevs (some (Except.ok fin))) :
      BulkShape submit (some (none, some err))
        (⟨Caller.createJob, jreq, Reply.job job none⟩ ::
         ⟨submit, sreq, Reply.batch b0 none⟩ :: pevs ++
         [⟨Caller.getBatchResults, rreq, Reply.results rs (some err)⟩,
          ⟨Caller.closeJob, closeJobReq job.ID, Reply.job cj cerr⟩])
  | success (jreq sreq preq rreq : Request) (job : CreateJobResponse)
      (b0 fin : CreateBatchResponse) (pevs : List Event) (rs : List SObjectResponse)
      (cj : CreateJobResponse) (cerr : Option GoError)
      (hp : PollRun preq b0 pevs (some (Except.ok fin))) :
      BulkShape submit (some (some rs, none))
        (⟨Caller.createJob, jreq, Reply.job job none⟩ ::
         ⟨submit, sreq, Reply.batch b0 none⟩ :: pevs ++
         [⟨Caller.getBatchResults, rreq, Reply.results rs none⟩,
          ⟨Caller.closeJob, closeJobReq job.ID, Reply.job cj cerr⟩])

/-- From world w the successive status polls are answered by the responses
rs, each without error, and leave the world w2. -/
def statusReplies {W : Type} (E : Executor W) (req : Request) :
    List CreateBatchResponse → W → W → Prop
  | [], w, w2 => w2 = w
  | r :: rs, w, w2 => ∃ w1, E.batch req w = ((r, none), w1) ∧ statusReplies E req rs w1 w2

/-- No status poll follows an entry of the log that satisfies terminal. -/
def noPollAfter (terminal : Event → Bool) : List Event → Bool
  | [] => true
  | e :: rest =>
    (!terminal e || rest.all (fun e2 => e2.caller != Caller.getBatchStatus))
      && noPollAfter terminal rest

/-- A batch response, of the submission or of a poll, whose state is one of
Completed, Failed and NotProcessed. -/
def terminalStated (e : Event) : Bool :=
  match e.reply with
  | Reply.batch b none =>
    b.State == "Completed" || b.State == "Failed" || b.State == "NotProcessed"
  | _ => false

/-- A batch response whose state is Completed, or a poll response whose state
is Failed. -/
def terminalInCode (e : Event) : Bool :=
  match e.reply with
  | Reply.batch b none =>
    b.State == "Completed" || (e.caller == Caller.getBatchStatus && b.State == "Failed")
  | _ => false

/-- A status poll that ends the loop with an error: it came back with an
error, or without error and with state Failed. -/
def pollStopped (e : Event) : Bool :=
  e.caller == Caller.getBatchStatus &&
    match e.reply with
    | Reply.batch b none => b.State == "Failed"
    | Reply.batch _ (some _) => true
    | _ => false

/-! ## oauth.go: Validate -/

/-- The method (oauth *ForceOauth) Validate of oauth.go.  The message of the
error is built with the verb %#v of the standard library, whose rendering of
the receiver is the parameter goSyntax.  The second component is the
receiver as the call leaves it. -/
def Validate (goSyntax : Option ForceOauth → String) (oauth : Option ForceOauth) :
    Option GoError × Option ForceOauth :=
  match oauth with
  | none => (some ⟨"Invalid Force Oauth Object: " ++ goSyntax oauth⟩, oauth)
  | some o =>
    if o.InstanceUrl.utf8ByteSize == 0 || o.AccessToken.utf8ByteSize == 0 then
      (some ⟨"Invalid Force Oauth Object: " ++ goSyntax oauth⟩, oauth)
    else (none, oauth)

/-! ## api.go: discovery -/

def versionsUri : String := "/services/data"

/-- The call fmt.Sprintf(resourcesUri, apiVersion), resourcesUri being
"/services/data/%v/". -/
def resourcesUri (apiVersion : String) : String :=
  "/services/data/" ++ apiVersion ++ "/"

/-- The method getApiVersions of api.go: the destination of the fetch is the
field apiVersions itself, whatever the error. -/
def getApiVersions {W : Type} (E : Executor W) (forceApi : ForceApi) (net : Net W) :
    Option GoError × ForceApi × Net W :=
  let r := invoke Caller.getApiVersions (fun req w => E.versions req forceApi.apiVersions w)
    Reply.versions (getReq versionsUri []) net
  (r.1.2, { forceApi with apiVersions := r.1.1 }, r.2)

/-- The method getApiResources of api.go: the destination of the fetch is
the field apiResources itself, whatever the error. -/
def getApiResources {W : Type} (E : Executor W) (forceApi : ForceApi) (net : Net W) :
    Option GoError × ForceApi × Net W :=
  let uri := resourcesUri forceApi.apiVersion
  let r := invoke Caller.getApiResources
    (fun req w => E.resources req forceApi.apiResources w) Reply.resources (getReq uri []) net
  (r.1.2, { forceApi with apiResources := r.1.1 }, r.2)

/-- The range loop of getApiSObjects (lines 253 to 255). -/
def indexSObjects (table : GoMap SObjectMetaData) (objects : List SObjectMetaData) :
    GoMap SObjectMetaData :=
  objects.foldl (fun m object => mapStore m object.Name object) table

/-- The method getApiSObjects of api.go. -/
def getApiSObjects {W : Type} (E : Executor W) (forceApi : ForceApi) (net : Net W) :
    Option GoError × ForceApi × Net W :=
  let uri := mapIndexString forceApi.apiResources sObjectsKey
  let r := invoke Caller.getApiSObjects E.objects Reply.objects (getReq uri []) net
  match r.1.2 with
  | some err => (some err, forceApi, r.2)
  | none =>
    (none,
      { forceApi with
        apiMaxBatchSize := r.1.1.MaxBatchSize
        apiSObjects := indexSObjects forceApi.apiSObjects r.1.1.SObjects },
      r.2)

/-- The range loop of getApiSObjectDescriptions over the entries of the
object table still to be visited; cache is the description cache so far.
Go leaves the order of a range over a map unspecified; the embedding visits
the entries in the order of the association list. -/
def describeAll {W : Type} (E : Executor W) :
    List (String × SObjectMetaData) → GoMap SObjectDescription → Net W →
      Option GoError × GoMap SObjectDescription × Net W
  | [], cache, net => (none, cache, net)
  | (name, metaData) :: rest, cache, net =>
    let uri := mapIndexString metaData.URLs sObjectDescribeKey
    let r := invoke Caller.getApiSObjectDescriptions E.description Reply.description
      (getReq uri []) net
    match r.1.2 with
    | some err => (some err, cache, r.2)
    | none => describeAll E rest (mapStore cache name (decoded r.1.1)) r.2

/-- The method getApiSObjectDescriptions of api.go. -/
def getApiSObjectDescriptions {W : Type} (E : Executor W) (forceApi : ForceApi)
    (net : Net W) : Option GoError × ForceApi × Net W :=
  let r := describeAll E forceApi.apiSObjects forceApi.apiSObjectDescriptions net
  (r.1, { forceApi with apiSObjectDescriptions := r.2.1 }, r.2.2)

/-! ## The invariant of the description cache -/

/-- The derived list of a description as the specification words it: the
names of the fields that are not of type location, in order, joined with a
comma and a blank. -/
def derivedAllFields (d : SObjectDescription) : String :=
  stringsJoin ((d.Fields.filter (fun f => f.Type_ != "location")).map (fun f => f.Name)) ", "

/-- Every entry of the cache carries the derived list of its own fields. -/
def cacheInvariant (cache : GoMap SObjectDescription) : Bool :=
  cache.all (fun entry => entry.2.AllFields == derivedAllFields entry.2)

/-- The last entry of the response list that carries the given name. -/
def lastNamed (objects : List SObjectMetaData) (name : String) : Option SObjectMetaData :=
  objects.reverse.find? (fun object => object.Name == name)

/-! ## More concrete clients and platforms -/

def exOauth : ForceOauth :=
  { AccessToken := "00Dx!AQ", RefreshToken := "5Aep", InstanceUrl := "https://na1.example",
    Id := "", IssuedAt := "", Signature := "", TokenType := "Bearer", Scope := "",
    clientId := "cid", clientSecret := "secret", userName := "u", password := "p",
    securityToken := "t", environment := "production" }

/-- A rendering of the receiver that tells nil from non-nil only. -/
def exGoSyntax : Option ForceOauth → String
  | none => "(*force.ForceOauth)(nil)"
  | some _ => "&force.ForceOauth\x7b...\x7d"

def exVersion37 : Version := ⟨"Summer 16", "/services/data/v37.0", "37.0"⟩

def exVersion38 : Version := ⟨"Winter 17", "/services/data/v38.0", "38.0"⟩

/-- A platform that lists one version on the first call and two on the
second. -/
def exVersionsNet : Net (List Reply) :=
  ⟨[Reply.versions [exVersion37] none, Reply.versions [exVersion37, exVersion38] none], []⟩

/-- A platform that gives the same object list, Account and Contact, twice. -/
def exObjectsNet : Net (List Reply) :=
  ⟨[Reply.objects ⟨"UTF-8", 200, [exAccountMeta, exContactMeta]⟩ none,
    Reply.objects ⟨"UTF-8", 200, [exAccountMeta, exContactMeta]⟩ none], []⟩

/-- A client after version and resource discovery, with an empty object
table. -/
def exFreshApi : ForceApi :=
  { (default : ForceApi) with
    apiVersion := "v37.0"
    apiResources := [("sobjects", "/services/data/v37.0/sobjects")] }

/-- The first of two calls of getApiVersions on the same client. -/
def exVersionsFirst : Option GoError × ForceApi × Net (List Reply) :=
  getApiVersions scripted exFreshApi exVersionsNet

/-- The second of two calls of getApiVersions on the same client. -/
def exVersionsSecond : Option GoError × ForceApi × Net (List Reply) :=
  getApiVersions scripted exVersionsFirst.2.1 exVersionsFirst.2.2

/-- The first of two calls of getApiSObjects on the same client. -/
def exObjectsFirst : Option GoError × ForceApi × Net (List Reply) :=
  getApiSObjects scripted exFreshApi exObjectsNet

/-- The second of two calls of getApiSObjects on the same client. -/
def exObjectsSecond : Option GoError × ForceApi × Net (List Reply) :=
  getApiSObjects scripted exObjectsFirst.2.1 exObjectsFirst.2.2

/-- The client after GetApiSObjectDescription has fetched Account. -/
def exAfterGetDescription :
    (Option SObjectDescription × Option GoError) × ForceApi × Net (List Reply) :=
  GetApiSObjectDescription scripted exApi "Account" exDescribeNet

/-! # Theorems -/

theorem Expired_eq_any (oauth : Option ForceOauth) (apiErrors : ApiErrors) :
    Expired oauth apiErrors = (apiErrors.map (fun e => e.ErrorCode)).contains invalidSessionErrorCode := by
  induction apiErrors with
  | nil => rfl
  | cons e rest ih =>
    simp only [Expired, List.map_cons, List.contains_cons, ih]
    by_cases h : e.ErrorCode = invalidSessionErrorCode
    · simp [h]
    · have h2 : ¬ invalidSessionErrorCode = e.ErrorCode := fun h3 => h h3.symm
      simp [h, h2]

/-- C1: Expired is true exactly when some entry of the list carries the code
INVALID_SESSION_ID; it is false on the empty list; and it depends on nothing
but the sequence of error codes (not on the receiver, messages or fields). -/
theorem C1_Expired_iff_invalid_session (oauth : Option ForceOauth) (apiErrors : ApiErrors) :
    (Expired oauth apiErrors = true ↔ ∃ e ∈ apiErrors, e.ErrorCode = "INVALID_SESSION_ID")
    ∧ Expired oauth [] = false
    ∧ (∀ (oauth2 : Option ForceOauth) (apiErrors2 : ApiErrors),
        apiErrors2.map (fun e => e.ErrorCode) = apiErrors.map (fun e => e.ErrorCode) →
        Expired oauth2 apiErrors2 = Expired oauth apiErrors) := by
  refine ⟨?_, rfl, ?_⟩
  · rw [Expired_eq_any]
    simp [invalidSessionErrorCode, List.contains_iff_exists_mem_beq]
  · intro oauth2 apiErrors2 h
    rw [Expired_eq_any, Expired_eq_any, h]

/-- C2: on a description whose first field has type location, DescribeSObject
computes the string ", Id, Name", which starts with a separator, where the
claim requires "Id, Name", the other names joined with ", ". -/
theorem C2_location_first_leading_separator :
    (DescribeSObject scripted exApi exAccount
        ⟨[Reply.description exLocationFirst none], []⟩).1
      = (some { exLocationFirst with AllFields := ", Id, Name" }, none)
    ∧ stringsJoin
        ((exLocationFirst.Fields.filter (fun f => f.Type_ != "location")).map (fun f => f.Name))
        ", " = "Id, Name" := by
  constructor <;> decide

/-- C3: for a record whose ApiName is missing from the object table, only
InsertSObject returns the error Not found; GetSObject, UpdateSObject,
DeleteSObject and the three external-id operations panic on the nil table
entry.  None of them reaches the executor. -/
theorem C3_unknown_object_panics :
    GetSObject scripted exApi "001" ["Name"] exUnknown ⟨[], []⟩ = (Run.panicked, ⟨[], []⟩)
    ∧ UpdateSObject scripted exApi "001" exUnknown ⟨[], []⟩ = (Run.panicked, ⟨[], []⟩)
    ∧ DeleteSObject scripted exApi "001" exUnknown ⟨[], []⟩ = (Run.panicked, ⟨[], []⟩)
    ∧ GetSObjectByExternalId scripted exApi "a@b.com" [] exUnknown ⟨[], []⟩
        = (Run.panicked, ⟨[], []⟩)
    ∧ UpsertSObjectByExternalId scripted exApi "a@b.com" exUnknown ⟨[], []⟩
        = (Run.panicked, ⟨[], []⟩)
    ∧ DeleteSObjectByExternalId scripted exApi "a@b.com" exUnknown ⟨[], []⟩
        = (Run.panicked, ⟨[], []⟩)
    ∧ InsertSObject scripted exApi exUnknown ⟨[], []⟩
        = (Run.returned (none, some (errorsNew "Not found")), ⟨[], []⟩) := by
  refine ⟨rfl, rfl, rfl, rfl, rfl, rfl, rfl⟩

theorem mapIndex_mapStore_self {V : Type} (m : GoMap V) (k : String) (v : V) :
    mapIndex (mapStore m k v) k = some v := by
  simp [mapIndex, mapStore, List.lookup]

/-- C4: for a name in the object table and not yet described, when the
describe fetch succeeds, two calls of DescribeSObject in a row make exactly
one executor call in total; the second call returns what the first returned
and leaves the client, hence the description cache, as the first left it. -/
theorem C4_DescribeSObject_twice_one_fetch {W : Type} (E : Executor W) (forceApi : ForceApi)
    (inp : SObject) (net : Net W) (md : SObjectMetaData)
    (hcache : mapIndex forceApi.apiSObjectDescriptions inp.ApiName = none)
    (htable : mapIndex forceApi.apiSObjects inp.ApiName = some md)
    (hfetch : (E.description (getReq (mapIndexString md.URLs sObjectDescribeKey) [])
        net.world).1.2 = none) :
    ∃ (resp : SObjectDescription) (ev : Event),
      (DescribeSObject E forceApi inp net).1 = (some resp, none)
      ∧ (DescribeSObject E forceApi inp net).2.2.log = net.log ++ [ev]
      ∧ ev.caller = Caller.DescribeSObject
      ∧ ev.req = getReq (mapIndexString md.URLs sObjectDescribeKey) []
      ∧ DescribeSObject E (DescribeSObject E forceApi inp net).2.1 inp
            (DescribeSObject E forceApi inp net).2.2
          = ((some resp, none), (DescribeSObject E forceApi inp net).2.1,
              (DescribeSObject E forceApi inp net).2.2) := by
  simp only [DescribeSObject, hcache, htable, invoke, hfetch]
  refine ⟨_, _, rfl, rfl, rfl, rfl, ?_⟩
  simp only [mapIndex_mapStore_self]

/-- C5: for a name that is in neither the description cache nor the object
table, DescribeSObject and GetApiSObjectDescription return no description
and an error, and leave the client and the executor state, log included,
exactly as they were. -/
theorem C5_unknown_name_not_found {W : Type} (E : Executor W) (forceApi : ForceApi)
    (inp : SObject) (net : Net W)
    (hcache : mapIndex forceApi.apiSObjectDescriptions inp.ApiName = none)
    (htable : mapIndex forceApi.apiSObjects inp.ApiName = none) :
    DescribeSObject E forceApi inp net
      = ((none, some ⟨"Unable to find metadata for object: " ++ inp.ApiName⟩), forceApi, net)
    ∧ GetApiSObjectDescription E forceApi inp.ApiName net
      = ((none, some (errorsNew "Not found")), forceApi, net) := by
  simp [DescribeSObject, GetApiSObjectDescription, hcache, htable]

/-- The client that knows Account, against a platform that answers one
describe call: the hypotheses of C4 hold and so does its conclusion. -/
theorem C4_DescribeSObject_twice_witness :
    mapIndex exApi.apiSObjectDescriptions exAccount.ApiName = none
    ∧ mapIndex exApi.apiSObjects exAccount.ApiName = some exAccountMeta
    ∧ ∃ (resp : SObjectDescription) (ev : Event),
      (DescribeSObject scripted exApi exAccount exDescribeNet).1 = (some resp, none)
      ∧ (DescribeSObject scripted exApi exAccount exDescribeNet).2.2.log
          = exDescribeNet.log ++ [ev]
      ∧ ev.caller = Caller.DescribeSObject
      ∧ ev.req = getReq (mapIndexString exAccountMeta.URLs sObjectDescribeKey) []
      ∧ DescribeSObject scripted (DescribeSObject scripted exApi exAccount exDescribeNet).2.1
            exAccount (DescribeSObject scripted exApi exAccount exDescribeNet).2.2
          = ((some resp, none), (DescribeSObject scripted exApi exAccount exDescribeNet).2.1,
              (DescribeSObject scripted exApi exAccount exDescribeNet).2.2) :=
  ⟨by decide, by decide,
    C4_DescribeSObject_twice_one_fetch scripted exApi exAccount exDescribeNet exAccountMeta
      (by decide) (by decide) (by decide)⟩

/-- The object Missing__c is in neither map of the example client: both
functions return the error and change nothing. -/
theorem C5_unknown_name_witness :
    mapIndex exApi.apiSObjectDescriptions exUnknown.ApiName = none
    ∧ mapIndex exApi.apiSObjects exUnknown.ApiName = none
    ∧ DescribeSObject scripted exApi exUnknown exDescribeNet
      = ((none, some ⟨"Unable to find metadata for object: Missing__c"⟩), exApi, exDescribeNet)
    ∧ GetApiSObjectDescription scripted exApi exUnknown.ApiName exDescribeNet
      = ((none, some (errorsNew "Not found")), exApi, exDescribeNet) :=
  ⟨by decide, by decide,
    C5_unknown_name_not_found scripted exApi exUnknown exDescribeNet (by decide) (by decide)⟩

/-- C6: for a record whose ApiName is in the object table, each of the three
external-id operations makes exactly one executor call, and the path of that
call is the collection URL of the object (its URLs entry "sobject"), a
slash, the ExternalIdApiName of the record, a slash, and the external id
given; upsert uses PATCH with the record as body, get uses GET, delete uses
DELETE.  No other entry of the object, the row template included, enters
the request. -/
theorem C6_external_id_url {W : Type} (E : Executor W) (forceApi : ForceApi) (id : String)
    (fields : List String) (rec : SObject) (net : Net W) (md : SObjectMetaData)
    (htable : mapIndex forceApi.apiSObjects rec.ApiName = some md) :
    (∃ reply,
        (UpsertSObjectByExternalId E forceApi id rec net).2.log = net.log ++
          [⟨Caller.UpsertSObjectByExternalId,
            patchReq (mapIndexString md.URLs "sobject" ++ "/" ++ rec.ExternalIdApiName ++ "/" ++ id)
              [] (Payload.record rec), reply⟩])
    ∧ (∃ reply,
        (GetSObjectByExternalId E forceApi id fields rec net).2.log = net.log ++
          [⟨Caller.GetSObjectByExternalId,
            getReq (mapIndexString md.URLs "sobject" ++ "/" ++ rec.ExternalIdApiName ++ "/" ++ id)
              (fieldsParams fields), reply⟩])
    ∧ (∃ reply,
        (DeleteSObjectByExternalId E forceApi id rec net).2.log = net.log ++
          [⟨Caller.DeleteSObjectByExternalId,
            deleteReq (mapIndexString md.URLs "sobject" ++ "/" ++ rec.ExternalIdApiName ++ "/" ++ id)
              [], reply⟩]) := by
  refine ⟨?_, ?_, ?_⟩
  · simp only [UpsertSObjectByExternalId, htable, invoke, sprintfPath, sObjectKey]
    exact ⟨_, rfl⟩
  · simp only [GetSObjectByExternalId, htable, invoke, sprintfPath, sObjectKey]
    exact ⟨_, rfl⟩
  · simp only [DeleteSObjectByExternalId, htable, invoke, sprintfPath, sObjectKey]
    exact ⟨_, rfl⟩

/-- The example of the specification: Contact, external-id field Email__c,
value a@b.com. -/
theorem C6_external_id_url_witness :
    mapIndex exContactApi.apiSObjects exContact.ApiName = some exContactMeta
    ∧ ((UpsertSObjectByExternalId scripted exContactApi "a@b.com" exContact ⟨[], []⟩).2.log.map
        (fun e => e.req.path)
        = ["/services/data/v37.0/sobjects/Contact/Email__c/a@b.com"])
    ∧ ((GetSObjectByExternalId scripted exContactApi "a@b.com" [] exContact ⟨[], []⟩).2.log.map
        (fun e => e.req.path)
        = ["/services/data/v37.0/sobjects/Contact/Email__c/a@b.com"])
    ∧ ((DeleteSObjectByExternalId scripted exContactApi "a@b.com" exContact ⟨[], []⟩).2.log.map
        (fun e => e.req.path)
        = ["/services/data/v37.0/sobjects/Contact/Email__c/a@b.com"]) := by
  have h := C6_external_id_url scripted exContactApi "a@b.com" [] exContact ⟨[], []⟩
    exContactMeta (by decide)
  obtain ⟨⟨r1, h1⟩, ⟨r2, h2⟩, ⟨r3, h3⟩⟩ := h
  refine ⟨by decide, ?_, ?_, ?_⟩
  · rw [h1]; rfl
  · rw [h2]; rfl
  · rw [h3]; rfl

/-! ## Lemmas on the derived field and on unknown names -/

/-- From a positive index on, the loop writes a separator before every name
it writes. -/
theorem allFieldsLoop_inner (length : Nat) :
    ∀ (fs : List SObjectField) (index : Nat) (buf : String), 0 < index →
      index + fs.length ≤ length →
      allFieldsLoop length index fs buf
        = match (fs.filter (fun f => f.Type_ != "location")).map (fun f => f.Name) with
          | [] => buf
          | n :: ns => buf ++ ", " ++ stringsJoin (n :: ns) ", " := by
  intro fs
  induction fs with
  | nil => intro index buf _ _; rfl
  | cons f rest ih =>
    intro index buf hpos hlen
    simp only [List.length_cons] at hlen
    have hlt : index < length := by omega
    by_cases hf : f.Type_ = "location"
    · simp only [allFieldsLoop, hf, bne_self_eq_false, Bool.false_eq_true, ↓reduceIte,
        List.filter_cons_of_neg, not_false_eq_true]
      exact ih (index + 1) buf (by omega) (by omega)
    · have hb : (f.Type_ != "location") = true := by simpa using hf
      simp only [allFieldsLoop, hb, ↓reduceIte, hpos, hlt, decide_True, Bool.and_self,
        List.filter_cons_of_pos, List.map_cons]
      rw [ih (index + 1) (buf ++ ", " ++ f.Name) (by omega) (by omega)]
      cases (rest.filter (fun f => f.Type_ != "location")).map (fun f => f.Name) with
      | nil => simp [stringsJoin, String.append_assoc]
      | cons n ns => simp [stringsJoin, String.append_assoc]

/-- When the first field of the description is not of type location, the
string DescribeSObject derives is the join of the names of the fields that
are not of type location: the leading separator of C2 needs a location field
in the first position. -/
theorem computeAllFields_first_kept (resp : SObjectDescription) (f : SObjectField)
    (rest : List SObjectField) (hfields : resp.Fields = f :: rest)
    (hf : f.Type_ ≠ "location") :
    (computeAllFields resp).AllFields
      = stringsJoin ((resp.Fields.filter (fun f => f.Type_ != "location")).map
          (fun f => f.Name)) ", " := by
  have hb : (f.Type_ != "location") = true := by simpa using hf
  simp only [computeAllFields, hfields, List.length_cons, gt_iff_lt, Nat.zero_lt_succ,
    ↓reduceIte, allFieldsLoop, hb, lt_self_iff_false, decide_False, Bool.false_and,
    Bool.false_eq_true, List.filter_cons_of_pos, List.map_cons]
  rw [allFieldsLoop_inner (rest.length + 1) rest (0 + 1) ("" ++ f.Name) (by omega) (by omega)]
  cases (rest.filter (fun f => f.Type_ != "location")).map (fun f => f.Name) with
  | nil => simp [stringsJoin]
  | cons n ns => simp [stringsJoin, String.append_assoc]

/-- Whatever the executor and the arguments, a record whose ApiName is not in
the object table makes every record operation but InsertSObject panic before
any call is made. -/
theorem record_operations_unknown_name {W : Type} (E : Executor W) (forceApi : ForceApi)
    (id : String) (fields : List String) (rec : SObject) (net : Net W)
    (htable : mapIndex forceApi.apiSObjects rec.ApiName = none) :
    GetSObject E forceApi id fields rec net = (Run.panicked, net)
    ∧ UpdateSObject E forceApi id rec net = (Run.panicked, net)
    ∧ DeleteSObject E forceApi id rec net = (Run.panicked, net)
    ∧ GetSObjectByExternalId E forceApi id fields rec net = (Run.panicked, net)
    ∧ UpsertSObjectByExternalId E forceApi id rec net = (Run.panicked, net)
    ∧ DeleteSObjectByExternalId E forceApi id rec net = (Run.panicked, net)
    ∧ InsertSObject E forceApi rec net
        = (Run.returned (none, some (errorsNew "Not found")), net) := by
  simp [GetSObject, UpdateSObject, DeleteSObject, GetSObjectByExternalId,
    UpsertSObjectByExternalId, DeleteSObjectByExternalId, InsertSObject, htable]

/-! ## The log written by the bulk operations -/

theorem orError_invoke_cases {W α : Type} (c : Caller)
    (run : Request → W → (α × Option GoError) × W) (wrap : α → Option GoError → Reply)
    (req : Request) (net : Net W) :
    (∃ x w, run req net.world = ((x, none), w) ∧
        orError (invoke c run wrap req net)
          = (Except.ok x, ⟨w, net.log ++ [⟨c, req, wrap x none⟩]⟩))
    ∨ (∃ x err w, run req net.world = ((x, some err), w) ∧
        orError (invoke c run wrap req net)
          = (Except.error err, ⟨w, net.log ++ [⟨c, req, wrap x (some err)⟩]⟩)) := by
  rcases h : run req net.world with ⟨⟨x, err⟩, w⟩
  cases err with
  | none => left; exact ⟨x, w, rfl, by simp [orError, invoke, h]⟩
  | some e => right; exact ⟨x, e, w, rfl, by simp [orError, invoke, h]⟩

theorem pollLoop_trace {W : Type} (E : Executor W) (jobID batchID : String) (fuel : Nat) :
    ∀ (res : CreateBatchResponse) (net : Net W),
      ∃ evs, (pollLoop E jobID batchID fuel res net).2.log = net.log ++ evs
        ∧ PollRun (getBatchStatusReq jobID batchID) res evs
            (pollLoop E jobID batchID fuel res net).1 := by
  induction fuel with
  | zero =>
    intro res net
    by_cases h : res.State = "Completed"
    · exact ⟨[], by simp [pollLoop, h], by simpa [pollLoop, h] using PollRun.completed res h⟩
    · exact ⟨[], by simp [pollLoop, h], by simpa [pollLoop, h] using PollRun.pending res h⟩
  | succ n ih =>
    intro res net
    by_cases h : res.State = "Completed"
    · exact ⟨[], by simp [pollLoop, h], by simpa [pollLoop, h] using PollRun.completed res h⟩
    · rcases orError_invoke_cases Caller.getBatchStatus E.batch Reply.batch
          (getBatchStatusReq jobID batchID) net with ⟨r, w, _, hs⟩ | ⟨r, err, w, _, hs⟩
      · by_cases hf : r.State = "Failed"
        · refine ⟨[pollEvent (getBatchStatusReq jobID batchID) r none], ?_, ?_⟩
          · simp [pollLoop, h, getBatchStatus, hs, hf, pollEvent]
          · simpa [pollLoop, h, getBatchStatus, hs, hf] using PollRun.pollFailed res r h hf
        · obtain ⟨evs, hlog, hrun⟩ := ih r
            ⟨w, net.log ++ [pollEvent (getBatchStatusReq jobID batchID) r none]⟩
          refine ⟨pollEvent (getBatchStatusReq jobID batchID) r none :: evs, ?_, ?_⟩
          · simp only [pollEvent] at hlog
            simp [pollLoop, h, getBatchStatus, hs, hf, hlog, pollEvent]
          · simp only [pollEvent] at hrun
            simpa [pollLoop, h, getBatchStatus, hs, hf] using PollRun.step res r evs _ h hf hrun
      · refine ⟨[pollEvent (getBatchStatusReq jobID batchID) r (some err)], ?_, ?_⟩
        · simp [pollLoop, h, getBatchStatus, hs, pollEvent]
        · simpa [pollLoop, h, getBatchStatus, hs] using PollRun.pollError res r err h

theorem PollRun_ok_completed {req : Request} {res fin : CreateBatchResponse} {evs : List Event}
    (h : PollRun req res evs (some (Except.ok fin))) : fin.State = "Completed" := by
  generalize hout : some (Except.ok fin) = out at h
  induction h with
  | completed res h => cases hout; exact h
  | pending res h => cases hout
  | pollError res r err h => cases hout
  | pollFailed res r h hr => cases hout
  | step res r evs out h hr tail ih => exact ih hout

theorem closeJob_log {W : Type} (E : Executor W) (jobID : String) (net : Net W) :
    ∃ cj cerr, (closeJob E jobID net).2.log
      = net.log ++ [⟨Caller.closeJob, closeJobReq jobID, Reply.job cj cerr⟩] := by
  rcases orError_invoke_cases Caller.closeJob E.job Reply.job (closeJobReq jobID) net
    with ⟨x, w, _, hs⟩ | ⟨x, err, w, _, hs⟩
  · exact ⟨x, none, by simp [closeJob, hs]⟩
  · exact ⟨x, some err, by simp [closeJob, hs]⟩

theorem afterSubmit_cases {W : Type} (E : Executor W) (fuel : Nat) (jobID : String)
    (res : CreateBatchResponse) (net : Net W) :
    ∃ pevs pout, PollRun (getBatchStatusReq jobID res.ID) res pevs pout ∧
      ((pout = none ∧ (afterSubmit E fuel jobID res net).1 = none
          ∧ (afterSubmit E fuel jobID res net).2.log = net.log ++ pevs)
      ∨ (∃ err, pout = some (Except.error err)
          ∧ (afterSubmit E fuel jobID res net).1 = some (none, some err)
          ∧ (afterSubmit E fuel jobID res net).2.log = net.log ++ pevs)
      ∨ (∃ fin rs err, pout = some (Except.ok fin)
          ∧ (afterSubmit E fuel jobID res net).1 = some (none, some err)
          ∧ (afterSubmit E fuel jobID res net).2.log = net.log ++ pevs ++
              [⟨Caller.getBatchResults, getBatchResultsReq jobID res.ID,
                Reply.results rs (some err)⟩])
      ∨ (∃ fin rs, pout = some (Except.ok fin)
          ∧ (afterSubmit E fuel jobID res net).1 = some (some rs, none)
          ∧ (afterSubmit E fuel jobID res net).2.log = net.log ++ pevs ++
              [⟨Caller.getBatchResults, getBatchResultsReq jobID res.ID,
                Reply.results rs none⟩])) := by
  obtain ⟨pevs, hlog, hrun⟩ := pollLoop_trace E jobID res.ID fuel res net
  refine ⟨pevs, _, hrun, ?_⟩
  rcases hpl : pollLoop E jobID res.ID fuel res net with ⟨out, netp⟩
  rw [hpl] at hlog hrun
  simp only at hlog hrun
  cases out with
  | none => left; simp [afterSubmit, hpl, hlog]
  | some o =>
    cases o with
    | error err => right; left; exact ⟨err, rfl, by simp [afterSubmit, hpl, hlog]⟩
    | ok fin =>
      have hfin : fin.State = "Completed" := PollRun_ok_completed hrun
      rcases orError_invoke_cases Caller.getBatchResults E.results Reply.results
          (getBatchResultsReq jobID res.ID) netp with ⟨rs, w, _, hs⟩ | ⟨rs, err, w, _, hs⟩
      · right; right; right
        exact ⟨fin, rs, rfl, by simp [afterSubmit, hpl, hfin, getBatchResults, hs, hlog]⟩
      · right; right; left
        exact ⟨fin, rs, err, rfl, by simp [afterSubmit, hpl, hfin, getBatchResults, hs, hlog]⟩

theorem BulkInsertSObjects_trace {W : Type} (E : Executor W) (fuel : Nat) (forceApi : ForceApi)
    (table : String) (inp : List SObject) (net : Net W) :
    ∃ evs, (BulkInsertSObjects E fuel forceApi table inp net).2.log = net.log ++ evs
      ∧ BulkShape Caller.createInsertBatch
          (BulkInsertSObjects E fuel forceApi table inp net).1 evs := by
  cases htable : mapIndex forceApi.apiSObjects table with
  | none => exact ⟨[], by simp [BulkInsertSObjects, htable],
      by simpa [BulkInsertSObjects, htable] using BulkShape.notFound⟩
  | some md =>
    rcases orError_invoke_cases Caller.createJob E.job Reply.job
        (createJobReq table "insert" "JSON") net with ⟨job, w, _, hj⟩ | ⟨job, err, w, _, hj⟩
    · rcases orError_invoke_cases Caller.createInsertBatch E.batch Reply.batch
          (createInsertBatchReq job.ID inp)
          ⟨w, net.log ++ [⟨Caller.createJob, createJobReq table "insert" "JSON",
            Reply.job job none⟩]⟩ with ⟨b0, w2, _, hs⟩ | ⟨b0, err, w2, _, hs⟩
      · obtain ⟨pevs, pout, hrun, hcases⟩ := afterSubmit_cases E fuel job.ID b0
          ⟨w2, (net.log ++ [⟨Caller.createJob, createJobReq table "insert" "JSON",
            Reply.job job none⟩]) ++ [⟨Caller.createInsertBatch,
              createInsertBatchReq job.ID inp, Reply.batch b0 none⟩]⟩
        rcases has : afterSubmit E fuel job.ID b0
          ⟨w2, (net.log ++ [⟨Caller.createJob, createJobReq table "insert" "JSON",
            Reply.job job none⟩]) ++ [⟨Caller.createInsertBatch,
              createInsertBatchReq job.ID inp, Reply.batch b0 none⟩]⟩ with ⟨ares, anet⟩
        rw [has] at hcases
        simp only at hcases
        simp only [List.append_assoc, List.cons_append, List.nil_append] at has
        obtain ⟨cj, cerr, hclose⟩ := closeJob_log E job.ID anet
        rcases hcases with ⟨hp, h1, h2⟩ | ⟨err, hp, h1, h2⟩ | ⟨fin, rs, err, hp, h1, h2⟩
          | ⟨fin, rs, hp, h1, h2⟩
        · subst hp h1
          refine ⟨⟨Caller.createJob, createJobReq table "insert" "JSON", Reply.job job none⟩ ::
            ⟨Caller.createInsertBatch, createInsertBatchReq job.ID inp, Reply.batch b0 none⟩ :: pevs, ?_, ?_⟩
          · simp [BulkInsertSObjects, htable, createJob, hj, createInsertBatch, hs, has,
              deferCloseJob, h2]
          · simpa [BulkInsertSObjects, htable, createJob, hj, createInsertBatch, hs, has,
              deferCloseJob] using BulkShape.polling _ _ _ job b0 pevs hrun
        · subst hp h1
          refine ⟨⟨Caller.createJob, createJobReq table "insert" "JSON", Reply.job job none⟩ ::
            ⟨Caller.createInsertBatch, createInsertBatchReq job.ID inp, Reply.batch b0 none⟩ :: pevs ++
            [⟨Caller.closeJob, closeJobReq job.ID, Reply.job cj cerr⟩], ?_, ?_⟩
          · simp [BulkInsertSObjects, htable, createJob, hj, createInsertBatch, hs, has,
              deferCloseJob, h2, hclose]
          · simpa [BulkInsertSObjects, htable, createJob, hj, createInsertBatch, hs, has,
              deferCloseJob] using BulkShape.pollStop _ _ _ job b0 pevs err cj cerr hrun
        · subst hp h1
          refine ⟨⟨Caller.createJob, createJobReq table "insert" "JSON", Reply.job job none⟩ ::
            ⟨Caller.createInsertBatch, createInsertBatchReq job.ID inp, Reply.batch b0 none⟩ :: pevs ++
            [⟨Caller.getBatchResults, getBatchResultsReq job.ID b0.ID, Reply.results rs (some err)⟩,
             ⟨Caller.closeJob, closeJobReq job.ID, Reply.job cj cerr⟩], ?_, ?_⟩
          · simp [BulkInsertSObjects, htable, createJob, hj, createInsertBatch, hs, has,
              deferCloseJob, h2, hclose]
          · simpa [BulkInsertSObjects, htable, createJob, hj, createInsertBatch, hs, has,
              deferCloseJob] using
              BulkShape.resultsError _ _ _ _ job b0 fin pevs rs err cj cerr hrun
        · subst hp h1
          refine ⟨⟨Caller.createJob, createJobReq table "insert" "JSON", Reply.job job none⟩ ::
            ⟨Caller.createInsertBatch, createInsertBatchReq job.ID inp, Reply.batch b0 none⟩ :: pevs ++
            [⟨Caller.getBatchResults, getBatchResultsReq job.ID b0.ID, Reply.results rs none⟩,
             ⟨Caller.closeJob, closeJobReq job.ID, Reply.job cj cerr⟩], ?_, ?_⟩
          · simp [BulkInsertSObjects, htable, createJob, hj, createInsertBatch, hs, has,
              deferCloseJob, h2, hclose]
          · simpa [BulkInsertSObjects, htable, createJob, hj, createInsertBatch, hs, has,
              deferCloseJob] using BulkShape.success _ _ _ _ job b0 fin pevs rs cj cerr hrun
      · obtain ⟨cj, cerr, hclose⟩ := closeJob_log E job.ID
          ⟨w2, (net.log ++ [⟨Caller.createJob, createJobReq table "insert" "JSON",
            Reply.job job none⟩]) ++ [⟨Caller.createInsertBatch,
              createInsertBatchReq job.ID inp, Reply.batch b0 (some err)⟩]⟩
        simp only [List.append_assoc, List.cons_append, List.nil_append] at hclose
        refine ⟨[⟨Caller.createJob, createJobReq table "insert" "JSON", Reply.job job none⟩,
          ⟨Caller.createInsertBatch, createInsertBatchReq job.ID inp, Reply.batch b0 (some err)⟩,
          ⟨Caller.closeJob, closeJobReq job.ID, Reply.job cj cerr⟩], ?_, ?_⟩
        · simp [BulkInsertSObjects, htable, createJob, hj, createInsertBatch, hs,
            deferCloseJob, hclose]
        · simpa [BulkInsertSObjects, htable, createJob, hj, createInsertBatch, hs,
            deferCloseJob] using BulkShape.submitError _ _ job b0 err cj cerr
    · refine ⟨[⟨Caller.createJob, createJobReq table "insert" "JSON",
        Reply.job job (some err)⟩], ?_, ?_⟩
      · simp [BulkInsertSObjects, htable, createJob, hj]
      · simpa [BulkInsertSObjects, htable, createJob, hj] using BulkShape.jobError _ job err

theorem BulkQuerySObjects_trace {W : Type} (E : Executor W) (fuel : Nat) (forceApi : ForceApi)
    (table : String) (query : String) (net : Net W) :
    ∃ evs, (BulkQuerySObjects E fuel forceApi table query net).2.log = net.log ++ evs
      ∧ BulkShape Caller.createQueryBatch
          (BulkQuerySObjects E fuel forceApi table query net).1 evs := by
  cases htable : mapIndex forceApi.apiSObjects table with
  | none => exact ⟨[], by simp [BulkQuerySObjects, htable],
      by simpa [BulkQuerySObjects, htable] using BulkShape.notFound⟩
  | some md =>
    rcases orError_invoke_cases Caller.createJob E.job Reply.job
        (createJobReq table "query" "CSV") net with ⟨job, w, _, hj⟩ | ⟨job, err, w, _, hj⟩
    · rcases orError_invoke_cases Caller.createQueryBatch E.batch Reply.batch
          (createQueryBatchReq job.ID query)
          ⟨w, net.log ++ [⟨Caller.createJob, createJobReq table "query" "CSV",
            Reply.job job none⟩]⟩ with ⟨b0, w2, _, hs⟩ | ⟨b0, err, w2, _, hs⟩
      · obtain ⟨pevs, pout, hrun, hcases⟩ := afterSubmit_cases E fuel job.ID b0
          ⟨w2, (net.log ++ [⟨Caller.createJob, createJobReq table "query" "CSV",
            Reply.job job none⟩]) ++ [⟨Caller.createQueryBatch,
              createQueryBatchReq job.ID query, Reply.batch b0 none⟩]⟩
        rcases has : afterSubmit E fuel job.ID b0
          ⟨w2, (net.log ++ [⟨Caller.createJob, createJobReq table "query" "CSV",
            Reply.job job none⟩]) ++ [⟨Caller.createQueryBatch,
              createQueryBatchReq job.ID query, Reply.batch b0 none⟩]⟩ with ⟨ares, anet⟩
        rw [has] at hcases
        simp only at hcases
        simp only [List.append_assoc, List.cons_append, List.nil_append] at has
        obtain ⟨cj, cerr, hclose⟩ := closeJob_log E job.ID anet
        rcases hcases with ⟨hp, h1, h2⟩ | ⟨err, hp, h1, h2⟩ | ⟨fin, rs, err, hp, h1, h2⟩
          | ⟨fin, rs, hp, h1, h2⟩
        · subst hp h1
          refine ⟨⟨Caller.createJob, createJobReq table "query" "CSV", Reply.job job none⟩ ::
            ⟨Caller.createQueryBatch, createQueryBatchReq job.ID query, Reply.batch b0 none⟩ :: pevs, ?_, ?_⟩
          · simp [BulkQuerySObjects, htable, createJob, hj, createQueryBatch, hs, has,
              deferCloseJob, h2]
          · simpa [BulkQuerySObjects, htable, createJob, hj, createQueryBatch, hs, has,
              deferCloseJob] using BulkShape.polling _ _ _ job b0 pevs hrun
        · subst hp h1
          refine ⟨⟨Caller.createJob, createJobReq table "query" "CSV", Reply.job job none⟩ ::
            ⟨Caller.createQueryBatch, createQueryBatchReq job.ID query, Reply.batch b0 none⟩ :: pevs ++
            [⟨Caller.closeJob, closeJobReq job.ID, Reply.job cj cerr⟩], ?_, ?_⟩
          · simp [BulkQuerySObjects, htable, createJob, hj, createQueryBatch, hs, has,
              deferCloseJob, h2, hclose]
          · simpa [BulkQuerySObjects, htable, createJob, hj, createQueryBatch, hs, has,
              deferCloseJob] using BulkShape.pollStop _ _ _ job b0 pevs err cj cerr hrun
        · subst hp h1
          refine ⟨⟨Caller.createJob, createJobReq table "query" "CSV", Reply.job job none⟩ ::
            ⟨Caller.createQueryBatch, createQueryBatchReq job.ID query, Reply.batch b0 none⟩ :: pevs ++
            [⟨Caller.getBatchResults, getBatchResultsReq job.ID b0.ID, Reply.results rs (some err)⟩,
             ⟨Caller.closeJob, closeJobReq job.ID, Reply.job cj cerr⟩], ?_, ?_⟩
          · simp [BulkQuerySObjects, htable, createJob, hj, createQueryBatch, hs, has,
              deferCloseJob, h2, hclose]
          · simpa [BulkQuerySObjects, htable, createJob, hj, createQueryBatch, hs, has,
              deferCloseJob] using
              BulkShape.resultsError _ _ _ _ job b0 fin pevs rs err cj cerr hrun
        · subst hp h1
          refine ⟨⟨Caller.createJob, createJobReq table "query" "CSV", Reply.job job none⟩ ::
            ⟨Caller.createQueryBatch, createQueryBatchReq job.ID query, Reply.batch b0 none⟩ :: pevs ++
            [⟨Caller.getBatchResults, getBatchResultsReq job.ID b0.ID, Reply.results rs none⟩,
             ⟨Caller.closeJob, closeJobReq job.ID, Reply.job cj cerr⟩], ?_, ?_⟩
          · simp [BulkQuerySObjects, htable, createJob, hj, createQueryBatch, hs, has,
              deferCloseJob, h2, hclose]
          · simpa [BulkQuerySObjects, htable, createJob, hj, createQueryBatch, hs, has,
              deferCloseJob] using BulkShape.success _ _ _ _ job b0 fin pevs rs cj cerr hrun
      · obtain ⟨cj, cerr, hclose⟩ := closeJob_log E job.ID
          ⟨w2, (net.log ++ [⟨Caller.createJob, createJobReq table "query" "CSV",
            Reply.job job none⟩]) ++ [⟨Caller.createQueryBatch,
              createQueryBatchReq job.ID query, Reply.batch b0 (some err)⟩]⟩
        simp only [List.append_assoc, List.cons_append, List.nil_append] at hclose
        refine ⟨[⟨Caller.createJob, createJobReq table "query" "CSV", Reply.job job none⟩,
          ⟨Caller.createQueryBatch, createQueryBatchReq job.ID query, Reply.batch b0 (some err)⟩,
          ⟨Caller.closeJob, closeJobReq job.ID, Reply.job cj cerr⟩], ?_, ?_⟩
        · simp [BulkQuerySObjects, htable, createJob, hj, createQueryBatch, hs,
            deferCloseJob, hclose]
        · simpa [BulkQuerySObjects, htable, createJob, hj, createQueryBatch, hs,
            deferCloseJob] using BulkShape.submitError _ _ job b0 err cj cerr
    · refine ⟨[⟨Caller.createJob, createJobReq table "query" "CSV",
        Reply.job job (some err)⟩], ?_, ?_⟩
      · simp [BulkQuerySObjects, htable, createJob, hj]
      · simpa [BulkQuerySObjects, htable, createJob, hj] using BulkShape.jobError _ job err

/-! ## Properties of the poll loop -/

theorem PollRun_callers {req : Request} {res : CreateBatchResponse} {evs : List Event}
    {out : Option (Except GoError CreateBatchResponse)} (h : PollRun req res evs out) :
    ∀ e ∈ evs, e.caller = Caller.getBatchStatus := by
  induction h with
  | completed res h => simp
  | pending res h => simp
  | pollError res r err h => simp [pollEvent]
  | pollFailed res r h hr => simp [pollEvent]
  | step res r evs out h hr tail ih =>
    intro e he
    rcases List.mem_cons.mp he with rfl | he
    · rfl
    · exact ih e he

theorem PollRun_of_completed {req : Request} {res : CreateBatchResponse} {evs : List Event}
    {out : Option (Except GoError CreateBatchResponse)} (h : PollRun req res evs out)
    (hc : res.State = "Completed") : evs = [] := by
  cases h <;> first | rfl | exact absurd hc ‹_›

theorem PollRun_noPollAfter {req : Request} {res : CreateBatchResponse} {evs : List Event}
    {out : Option (Except GoError CreateBatchResponse)} (h : PollRun req res evs out) :
    noPollAfter terminalInCode evs = true ∧ noPollAfter pollStopped evs = true := by
  induction h with
  | completed res h => simp [noPollAfter]
  | pending res h => simp [noPollAfter]
  | pollError res r err h => simp [noPollAfter]
  | pollFailed res r h hr => simp [noPollAfter]
  | step res r evs out h hr tail ih =>
    refine ⟨?_, ?_⟩
    · by_cases hc : r.State = "Completed"
      · have := PollRun_of_completed tail hc
        subst this
        simp [noPollAfter]
      · simp [noPollAfter, terminalInCode, pollEvent, hc, hr, ih.1]
    · simp [noPollAfter, pollStopped, pollEvent, hr, ih.2]

theorem noPollAfter_append (t : Event → Bool) (evs tail : List Event)
    (h : noPollAfter t evs = true)
    (hcall : ∀ e ∈ tail, e.caller ≠ Caller.getBatchStatus)
    (hterm : ∀ e ∈ tail, t e = false) :
    noPollAfter t (evs ++ tail) = true := by
  induction evs with
  | nil =>
    induction tail with
    | nil => rfl
    | cons a tl ih =>
      have ha : t a = false := hterm a (List.mem_cons_self _ _)
      simp only [List.nil_append, noPollAfter, ha, Bool.not_false, Bool.true_or, Bool.true_and]
      exact ih (fun e he => hcall e (List.mem_cons_of_mem _ he))
        (fun e he => hterm e (List.mem_cons_of_mem _ he))
  | cons a rest ih =>
    simp only [noPollAfter, Bool.and_eq_true, Bool.or_eq_true, Bool.not_eq_true',
      List.all_eq_true] at h
    show noPollAfter t (a :: (rest ++ tail)) = true
    simp only [noPollAfter, Bool.and_eq_true, Bool.or_eq_true,
      Bool.not_eq_true', List.all_eq_true]
    refine ⟨?_, ih h.2⟩
    rcases h.1 with h1 | h1
    · exact Or.inl h1
    · right
      intro e he
      rcases List.mem_append.mp he with he | he
      · exact h1 e he
      · simpa using hcall e he

theorem PollRun_stopped {req : Request} {res : CreateBatchResponse} {evs : List Event}
    {out : Option (Except GoError CreateBatchResponse)} (h : PollRun req res evs out) :
    (∀ e ∈ evs, ∀ b, e.reply = Reply.batch b none → b.State = "Failed" →
        out = some (Except.error (errorsNew "Failed import")))
    ∧ (∀ e ∈ evs, ∀ b err, e.reply = Reply.batch b (some err) →
        out = some (Except.error err)) := by
  induction h with
  | completed res h => simp
  | pending res h => simp
  | pollError res r err h => simp [pollEvent]
  | pollFailed res r h hr => simp [pollEvent]
  | step res r evs out h hr tail ih =>
    refine ⟨?_, ?_⟩
    · intro e he b hb hf
      rcases List.mem_cons.mp he with rfl | he
      · simp only [pollEvent, Reply.batch.injEq, and_true] at hb
        subst hb
        exact absurd hf hr
      · exact ih.1 e he b hb hf
    · intro e he b err hb
      rcases List.mem_cons.mp he with rfl | he
      · simp [pollEvent] at hb
      · exact ih.2 e he b err hb

/-! ## Properties of a whole run -/

theorem BulkShape_closeJob {submit : Caller} (hs1 : submit ≠ Caller.createJob)
    (hs2 : submit ≠ Caller.closeJob) {result : Option BulkResult} {evs : List Event}
    (h : BulkShape submit result evs) :
    (∀ r, result = some r → ∀ e ∈ evs, e.caller = Caller.createJob →
        ∀ job, e.reply = Reply.job job none →
        ∃ mid creply, evs = mid ++ [⟨Caller.closeJob, closeJobReq job.ID, creply⟩]
          ∧ ∀ e2 ∈ mid, e2.caller ≠ Caller.closeJob)
    ∧ (∀ e ∈ evs, e.caller = Caller.createJob → ∀ j err, e.reply = Reply.job j (some err) →
        ∀ e2 ∈ evs, e2.caller ≠ Caller.closeJob) := by
  have hne : Caller.getBatchStatus ≠ Caller.createJob := by decide
  have hne2 : Caller.getBatchStatus ≠ Caller.closeJob := by decide
  cases h with
  | notFound => simp
  | jobError jreq j err => simp
  | submitError jreq sreq job b err cj cerr =>
    refine ⟨?_, ?_⟩
    · intro r _ e he hc job2 hrep
      simp only [List.mem_cons, List.mem_singleton, List.not_mem_nil, or_false] at he
      rcases he with rfl | rfl | rfl
      · simp only [Reply.job.injEq, and_true] at hrep
        subst hrep
        exact ⟨[⟨Caller.createJob, jreq, Reply.job job none⟩,
          ⟨submit, sreq, Reply.batch b (some err)⟩], Reply.job cj cerr, rfl, by simp [hs2]⟩
      · exact absurd hc hs1
      · simp at hc
    · intro e he hc j2 err2 hrep
      simp only [List.mem_cons, List.mem_singleton, List.not_mem_nil, or_false] at he
      rcases he with rfl | rfl | rfl
      · simp at hrep
      · exact absurd hc hs1
      · simp at hc
  | polling jreq sreq preq job b0 pevs hp =>
    have hcall := PollRun_callers hp
    refine ⟨by simp, ?_⟩
    intro e he hc j2 err2 hrep
    simp only [List.mem_cons] at he
    rcases he with rfl | rfl | he
    · simp at hrep
    · exact absurd hc hs1
    · exact absurd ((hcall e he).symm.trans hc) hne
  | pollStop jreq sreq preq job b0 pevs err cj cerr hp =>
    have hcall := PollRun_callers hp
    refine ⟨?_, ?_⟩
    · intro r _ e he hc job2 hrep
      simp only [List.mem_cons, List.mem_append, List.mem_singleton, List.not_mem_nil,
        or_false] at he
      rcases he with (rfl | rfl | he) | rfl
      · simp only [Reply.job.injEq, and_true] at hrep
        subst hrep
        refine ⟨⟨Caller.createJob, jreq, Reply.job job none⟩ ::
          ⟨submit, sreq, Reply.batch b0 none⟩ :: pevs, Reply.job cj cerr, rfl, ?_⟩
        intro e2 he2
        simp only [List.mem_cons] at he2
        rcases he2 with rfl | rfl | he2
        · simp
        · exact hs2
        · rw [hcall e2 he2]; exact hne2
      · exact absurd hc hs1
      · exact absurd ((hcall e he).symm.trans hc) hne
      · simp at hc
    · intro e he hc j2 err2 hrep
      simp only [List.mem_cons, List.mem_append, List.mem_singleton, List.not_mem_nil,
        or_false] at he
      rcases he with (rfl | rfl | he) | rfl
      · simp at hrep
      · exact absurd hc hs1
      · exact absurd ((hcall e he).symm.trans hc) hne
      · simp at hc
  | resultsError jreq sreq preq rreq job b0 fin pevs rs err cj cerr hp =>
    have hcall := PollRun_callers hp
    refine ⟨?_, ?_⟩
    · intro r _ e he hc job2 hrep
      simp only [List.mem_cons, List.mem_append, List.mem_singleton, List.not_mem_nil,
        or_false] at he
      rcases he with (rfl | rfl | he) | rfl | rfl
      · simp only [Reply.job.injEq, and_true] at hrep
        subst hrep
        refine ⟨⟨Caller.createJob, jreq, Reply.job job none⟩ ::
          ⟨submit, sreq, Reply.batch b0 none⟩ :: pevs ++
          [⟨Caller.getBatchResults, rreq, Reply.results rs (some err)⟩], Reply.job cj cerr, by simp, ?_⟩
        intro e2 he2
        simp only [List.mem_cons, List.mem_append, List.mem_singleton, List.not_mem_nil,
          or_false] at he2
        rcases he2 with (rfl | rfl | he2) | rfl
        · simp
        · exact hs2
        · rw [hcall e2 he2]; exact hne2
        · simp
      · exact absurd hc hs1
      · exact absurd ((hcall e he).symm.trans hc) hne
      · simp at hc
      · simp at hc
    · intro e he hc j2 err2 hrep
      simp only [List.mem_cons, List.mem_append, List.mem_singleton, List.not_mem_nil,
        or_false] at he
      rcases he with (rfl | rfl | he) | rfl | rfl
      · simp at hrep
      · exact absurd hc hs1
      · exact absurd ((hcall e he).symm.trans hc) hne
      · simp at hc
      · simp at hc
  | success jreq sreq preq rreq job b0 fin pevs rs cj cerr hp =>
    have hcall := PollRun_callers hp
    refine ⟨?_, ?_⟩
    · intro r _ e he hc job2 hrep
      simp only [List.mem_cons, List.mem_append, List.mem_singleton, List.not_mem_nil,
        or_false] at he
      rcases he with (rfl | rfl | he) | rfl | rfl
      · simp only [Reply.job.injEq, and_true] at hrep
        subst hrep
        refine ⟨⟨Caller.createJob, jreq, Reply.job job none⟩ ::
          ⟨submit, sreq, Reply.batch b0 none⟩ :: pevs ++
          [⟨Caller.getBatchResults, rreq, Reply.results rs none⟩], Reply.job cj cerr, by simp, ?_⟩
        intro e2 he2
        simp only [List.mem_cons, List.mem_append, List.mem_singleton, List.not_mem_nil,
          or_false] at he2
        rcases he2 with (rfl | rfl | he2) | rfl
        · simp
        · exact hs2
        · rw [hcall e2 he2]; exact hne2
        · simp
      · exact absurd hc hs1
      · exact absurd ((hcall e he).symm.trans hc) hne
      · simp at hc
      · simp at hc
    · intro e he hc j2 err2 hrep
      simp only [List.mem_cons, List.mem_append, List.mem_singleton, List.not_mem_nil,
        or_false] at he
      rcases he with (rfl | rfl | he) | rfl | rfl
      · simp at hrep
      · exact absurd hc hs1
      · exact absurd ((hcall e he).symm.trans hc) hne
      · simp at hc
      · simp at hc

theorem BulkShape_noPollAfter {submit : Caller} (hs : submit ≠ Caller.getBatchStatus)
    {result : Option BulkResult} {evs : List Event} (h : BulkShape submit result evs) :
    noPollAfter terminalInCode evs = true ∧ noPollAfter pollStopped evs = true := by
  have key : ∀ (jreq sreq preq : Request) (job : CreateJobResponse) (b0 : CreateBatchResponse)
      (pevs tail : List Event) (out : Option (Except GoError CreateBatchResponse)),
      PollRun preq b0 pevs out →
      (∀ e ∈ tail, e.caller ≠ Caller.getBatchStatus) →
      (∀ e ∈ tail, terminalInCode e = false) → (∀ e ∈ tail, pollStopped e = false) →
      noPollAfter terminalInCode
          (⟨Caller.createJob, jreq, Reply.job job none⟩ ::
            ⟨submit, sreq, Reply.batch b0 none⟩ :: (pevs ++ tail)) = true
        ∧ noPollAfter pollStopped
          (⟨Caller.createJob, jreq, Reply.job job none⟩ ::
            ⟨submit, sreq, Reply.batch b0 none⟩ :: (pevs ++ tail)) = true := by
    intro jreq sreq preq job b0 pevs tail out hp hcall ht1 ht2
    have h1 := noPollAfter_append terminalInCode pevs tail (PollRun_noPollAfter hp).1 hcall ht1
    have h2 := noPollAfter_append pollStopped pevs tail (PollRun_noPollAfter hp).2 hcall ht2
    refine ⟨?_, ?_⟩
    · by_cases hc : b0.State = "Completed"
      · have hnil := PollRun_of_completed hp hc
        subst hnil
        simp only [List.nil_append] at h1 ⊢
        simp only [noPollAfter, terminalInCode, h1, Bool.and_true, Bool.false_eq_true,
          Bool.not_false, Bool.true_or, Bool.true_and, Bool.or_eq_true, Bool.not_eq_true',
          List.all_eq_true]
        right
        intro e he
        simpa using hcall e he
      · simp [noPollAfter, terminalInCode, hc, hs, h1]
    · simp [noPollAfter, pollStopped, hs, h2]
  cases h with
  | notFound => simp [noPollAfter]
  | jobError jreq j err => simp [noPollAfter, terminalInCode, pollStopped]
  | submitError jreq sreq job b err cj cerr =>
    simp [noPollAfter, terminalInCode, pollStopped, hs]
  | polling jreq sreq preq job b0 pevs hp =>
    simpa using key jreq sreq preq job b0 pevs [] none hp (by simp) (by simp) (by simp)
  | pollStop jreq sreq preq job b0 pevs err cj cerr hp =>
    exact key jreq sreq preq job b0 pevs _ _ hp (by simp)
      (by simp [terminalInCode]) (by simp [pollStopped])
  | resultsError jreq sreq preq rreq job b0 fin pevs rs err cj cerr hp =>
    exact key jreq sreq preq job b0 pevs _ _ hp (by simp)
      (by simp [terminalInCode]) (by simp [pollStopped])
  | success jreq sreq preq rreq job b0 fin pevs rs cj cerr hp =>
    exact key jreq sreq preq job b0 pevs _ _ hp (by simp)
      (by simp [terminalInCode]) (by simp [pollStopped])

theorem BulkShape_stopped {submit : Caller} (hs : submit ≠ Caller.getBatchStatus)
    (hs2 : submit ≠ Caller.getBatchResults)
    {result : Option BulkResult} {evs : List Event} (h : BulkShape submit result evs) :
    (∀ e ∈ evs, e.caller = Caller.getBatchStatus → ∀ b, e.reply = Reply.batch b none →
        b.State = "Failed" →
        result = some (none, some (errorsNew "Failed import"))
          ∧ ∀ e2 ∈ evs, e2.caller ≠ Caller.getBatchResults)
    ∧ (∀ e ∈ evs, e.caller = Caller.getBatchStatus → ∀ b err,
        e.reply = Reply.batch b (some err) →
        result = some (none, some err) ∧ ∀ e2 ∈ evs, e2.caller ≠ Caller.getBatchResults) := by
  have hne : Caller.getBatchStatus ≠ Caller.getBatchResults := by decide
  have inPolls : ∀ (jreq sreq : Request) (job : CreateJobResponse) (b0 : CreateBatchResponse)
      (pevs tail : List Event), (∀ e ∈ tail, e.caller ≠ Caller.getBatchStatus) →
      ∀ e ∈ (⟨Caller.createJob, jreq, Reply.job job none⟩ ::
            ⟨submit, sreq, Reply.batch b0 none⟩ :: pevs ++ tail),
        e.caller = Caller.getBatchStatus → e ∈ pevs := by
    intro jreq sreq job b0 pevs tail htail e he hc
    simp only [List.mem_cons, List.mem_append] at he
    rcases he with (rfl | rfl | he) | he
    · simp at hc
    · exact absurd hc hs
    · exact he
    · exact absurd hc (htail e he)
  cases h with
  | notFound => simp
  | jobError jreq j err => simp
  | submitError jreq sreq job b err cj cerr =>
    refine ⟨?_, ?_⟩
    · intro e he hc
      simp only [List.mem_cons, List.mem_singleton, List.not_mem_nil, or_false] at he
      rcases he with rfl | rfl | rfl
      · simp at hc
      · exact absurd hc hs
      · simp at hc
    · intro e he hc
      simp only [List.mem_cons, List.mem_singleton, List.not_mem_nil, or_false] at he
      rcases he with rfl | rfl | rfl
      · simp at hc
      · exact absurd hc hs
      · simp at hc
  | polling jreq sreq preq job b0 pevs hp =>
    have hin := inPolls jreq sreq job b0 pevs [] (by simp)
    simp only [List.append_nil] at hin
    refine ⟨?_, ?_⟩
    · intro e he hc b hb hf
      have := (PollRun_stopped hp).1 e (hin e he hc) b hb hf
      simp at this
    · intro e he hc b err hb
      have := (PollRun_stopped hp).2 e (hin e he hc) b err hb
      simp at this
  | pollStop jreq sreq preq job b0 pevs err cj cerr hp =>
    have hin := inPolls jreq sreq job b0 pevs
      [⟨Caller.closeJob, closeJobReq job.ID, Reply.job cj cerr⟩] (by simp)
    have hcall := PollRun_callers hp
    have hno : ∀ e2 ∈ (⟨Caller.createJob, jreq, Reply.job job none⟩ ::
            ⟨submit, sreq, Reply.batch b0 none⟩ :: pevs ++
            [⟨Caller.closeJob, closeJobReq job.ID, Reply.job cj cerr⟩]),
        e2.caller ≠ Caller.getBatchResults := by
      intro e2 he2
      simp only [List.mem_cons, List.mem_append, List.mem_singleton, List.not_mem_nil,
        or_false] at he2
      rcases he2 with (rfl | rfl | he2) | rfl
      · simp
      · exact hs2
      · rw [hcall e2 he2]; exact hne
      · simp
    refine ⟨?_, ?_⟩
    · intro e he hc b hb hf
      have := (PollRun_stopped hp).1 e (hin e he hc) b hb hf
      simp only [Option.some.injEq, Except.error.injEq] at this
      subst this
      exact ⟨rfl, hno⟩
    · intro e he hc b err2 hb
      have := (PollRun_stopped hp).2 e (hin e he hc) b err2 hb
      simp only [Option.some.injEq, Except.error.injEq] at this
      subst this
      exact ⟨rfl, hno⟩
  | resultsError jreq sreq preq rreq job b0 fin pevs rs err cj cerr hp =>
    have hin := inPolls jreq sreq job b0 pevs
      [⟨Caller.getBatchResults, rreq, Reply.results rs (some err)⟩,
        ⟨Caller.closeJob, closeJobReq job.ID, Reply.job cj cerr⟩] (by simp)
    refine ⟨?_, ?_⟩
    · intro e he hc b hb hf
      have := (PollRun_stopped hp).1 e (hin e he hc) b hb hf
      simp at this
    · intro e he hc b err2 hb
      have := (PollRun_stopped hp).2 e (hin e he hc) b err2 hb
      simp at this
  | success jreq sreq preq rreq job b0 fin pevs rs cj cerr hp =>
    have hin := inPolls jreq sreq job b0 pevs
      [⟨Caller.getBatchResults, rreq, Reply.results rs none⟩,
        ⟨Caller.closeJob, closeJobReq job.ID, Reply.job cj cerr⟩] (by simp)
    refine ⟨?_, ?_⟩
    · intro e he hc b hb hf
      have := (PollRun_stopped hp).1 e (hin e he hc) b hb hf
      simp at this
    · intro e he hc b err2 hb
      have := (PollRun_stopped hp).2 e (hin e he hc) b err2 hb
      simp at this

/-! ## The bulk claims -/

/-- C7: in a run of BulkInsertSObjects or BulkQuerySObjects that has
returned, whenever the log shows a createJob call that succeeded with some
job, the calls of the run end with closeJob for that job's id and no earlier
call of the run is a closeJob; this covers every return after createJob
(submission error, poll error, Failed, results error, success).  When the
table is unknown the run makes no call at all, and when createJob came back
with an error no call of the run is a closeJob. -/
theorem C7_closeJob_once_and_last {W : Type} (E : Executor W) (fuel : Nat)
    (forceApi : ForceApi) (table query : String) (inp : List SObject) (net : Net W)
    (run : Option BulkResult × Net W)
    (hrun : run = BulkInsertSObjects E fuel forceApi table inp net
      ∨ run = BulkQuerySObjects E fuel forceApi table query net) :
    ∃ evs, run.2.log = net.log ++ evs
      ∧ (∀ result, run.1 = some result → ∀ e ∈ evs, e.caller = Caller.createJob →
          ∀ job, e.reply = Reply.job job none →
          ∃ mid creply, evs = mid ++ [⟨Caller.closeJob, closeJobReq job.ID, creply⟩]
            ∧ ∀ e2 ∈ mid, e2.caller ≠ Caller.closeJob)
      ∧ (mapIndex forceApi.apiSObjects table = none → evs = [])
      ∧ (∀ e ∈ evs, e.caller = Caller.createJob → ∀ j err, e.reply = Reply.job j (some err) →
          ∀ e2 ∈ evs, e2.caller ≠ Caller.closeJob) := by
  rcases hrun with rfl | rfl
  · obtain ⟨evs, hlog, hshape⟩ := BulkInsertSObjects_trace E fuel forceApi table inp net
    have hc := BulkShape_closeJob (by decide) (by decide) hshape
    refine ⟨evs, hlog, hc.1, ?_, hc.2⟩
    intro hnone
    have h0 : (BulkInsertSObjects E fuel forceApi table inp net).2.log = net.log := by
      simp [BulkInsertSObjects, hnone]
    rw [h0] at hlog
    exact (List.self_eq_append_right.mp hlog)
  · obtain ⟨evs, hlog, hshape⟩ := BulkQuerySObjects_trace E fuel forceApi table query net
    have hc := BulkShape_closeJob (by decide) (by decide) hshape
    refine ⟨evs, hlog, hc.1, ?_, hc.2⟩
    intro hnone
    have h0 : (BulkQuerySObjects E fuel forceApi table query net).2.log = net.log := by
      simp [BulkQuerySObjects, hnone]
    rw [h0] at hlog
    exact (List.self_eq_append_right.mp hlog)

/-- The run whose second status poll reports Failed returns the failure and
ends with the one closeJob call, for the job id 750x that createJob gave. -/
theorem C7_closeJob_witness :
    (BulkInsertSObjects scripted 5 exApi "Account" [exAccount] exFailedNet).1
        = some (none, some (errorsNew "Failed import"))
    ∧ ∃ mid creply,
        (BulkInsertSObjects scripted 5 exApi "Account" [exAccount] exFailedNet).2.log
          = mid ++ [⟨Caller.closeJob, closeJobReq "750x", creply⟩]
        ∧ ∀ e2 ∈ mid, e2.caller ≠ Caller.closeJob := by
  obtain ⟨evs, hlog, h1, _, _⟩ := C7_closeJob_once_and_last scripted 5 exApi "Account" ""
    [exAccount] exFailedNet _ (Or.inl rfl)
  have hevs : evs
      = (BulkInsertSObjects scripted 5 exApi "Account" [exAccount] exFailedNet).2.log := by
    rw [hlog]; rfl
  subst hevs
  refine ⟨by decide, ?_⟩
  exact h1 (none, some (errorsNew "Failed import")) (by decide)
    ⟨Caller.createJob, createJobReq "Account" "insert" "JSON", Reply.job exJob none⟩
    (by decide) rfl exJob rfl

/-- C9, as stated, fails: the platform answers the first status poll with
state NotProcessed, and the operation polls the batch status once more
before it fetches the results. -/
theorem C9_polls_again_after_NotProcessed :
    (BulkInsertSObjects scripted 5 exApi "Account" [exAccount] exNotProcessedNet).2.log.map
        (fun e => e.caller)
      = [Caller.createJob, Caller.createInsertBatch, Caller.getBatchStatus,
          Caller.getBatchStatus, Caller.getBatchResults, Caller.closeJob]
    ∧ (BulkInsertSObjects scripted 5 exApi "Account" [exAccount] exNotProcessedNet).2.log.map
        terminalStated = [false, false, true, true, false, false]
    ∧ noPollAfter terminalStated
        (BulkInsertSObjects scripted 5 exApi "Account" [exAccount] exNotProcessedNet).2.log
      = false := by
  refine ⟨by decide, by decide, by decide⟩

/-- C9, amended: in every run of BulkInsertSObjects and of BulkQuerySObjects,
whatever the executor answers and however long the loop has run, no
getBatchStatus call follows a batch response with state Completed, nor a
status poll response with state Failed. -/
theorem C9_no_poll_after_Completed_or_Failed {W : Type} (E : Executor W) (fuel : Nat)
    (forceApi : ForceApi) (table query : String) (inp : List SObject) (net : Net W) :
    (∃ evs, (BulkInsertSObjects E fuel forceApi table inp net).2.log = net.log ++ evs
      ∧ noPollAfter terminalInCode evs = true)
    ∧ (∃ evs, (BulkQuerySObjects E fuel forceApi table query net).2.log = net.log ++ evs
      ∧ noPollAfter terminalInCode evs = true) := by
  refine ⟨?_, ?_⟩
  · obtain ⟨evs, hlog, hshape⟩ := BulkInsertSObjects_trace E fuel forceApi table inp net
    exact ⟨evs, hlog, (BulkShape_noPollAfter (by decide) hshape).1⟩
  · obtain ⟨evs, hlog, hshape⟩ := BulkQuerySObjects_trace E fuel forceApi table query net
    exact ⟨evs, hlog, (BulkShape_noPollAfter (by decide) hshape).1⟩

/-- C10: in every run of BulkInsertSObjects or BulkQuerySObjects, a status
poll that comes back without error and with state Failed makes the operation
return the nil list with the error "Failed import"; a status poll that comes
back with an error makes it return the nil list with that same error; in both
cases no call of the run is a getBatchResults, and no status poll follows the
poll that stopped the loop. -/
theorem C10_failed_poll_aborts {W : Type} (E : Executor W) (fuel : Nat)
    (forceApi : ForceApi) (table query : String) (inp : List SObject) (net : Net W)
    (run : Option BulkResult × Net W)
    (hrun : run = BulkInsertSObjects E fuel forceApi table inp net
      ∨ run = BulkQuerySObjects E fuel forceApi table query net) :
    ∃ evs, run.2.log = net.log ++ evs
      ∧ (∀ e ∈ evs, e.caller = Caller.getBatchStatus → ∀ b, e.reply = Reply.batch b none →
          b.State = "Failed" →
          run.1 = some (none, some (errorsNew "Failed import"))
            ∧ ∀ e2 ∈ evs, e2.caller ≠ Caller.getBatchResults)
      ∧ (∀ e ∈ evs, e.caller = Caller.getBatchStatus → ∀ b err,
          e.reply = Reply.batch b (some err) →
          run.1 = some (none, some err) ∧ ∀ e2 ∈ evs, e2.caller ≠ Caller.getBatchResults)
      ∧ noPollAfter pollStopped evs = true := by
  rcases hrun with rfl | rfl
  · obtain ⟨evs, hlog, hshape⟩ := BulkInsertSObjects_trace E fuel forceApi table inp net
    have hs := BulkShape_stopped (by decide) (by decide) hshape
    exact ⟨evs, hlog, hs.1, hs.2, (BulkShape_noPollAfter (by decide) hshape).2⟩
  · obtain ⟨evs, hlog, hshape⟩ := BulkQuerySObjects_trace E fuel forceApi table query net
    have hs := BulkShape_stopped (by decide) (by decide) hshape
    exact ⟨evs, hlog, hs.1, hs.2, (BulkShape_noPollAfter (by decide) hshape).2⟩

/-- The run whose second status poll reports Failed: two polls, no
getBatchResults, the error "Failed import". -/
theorem C10_failed_poll_witness :
    (BulkInsertSObjects scripted 5 exApi "Account" [exAccount] exFailedNet).2.log.map
        (fun e => e.caller)
      = [Caller.createJob, Caller.createInsertBatch, Caller.getBatchStatus,
          Caller.getBatchStatus, Caller.closeJob]
    ∧ (BulkInsertSObjects scripted 5 exApi "Account" [exAccount] exFailedNet).1
        = some (none, some (errorsNew "Failed import"))
    ∧ ∀ e2 ∈ (BulkInsertSObjects scripted 5 exApi "Account" [exAccount] exFailedNet).2.log,
        e2.caller ≠ Caller.getBatchResults := by
  obtain ⟨evs, hlog, h1, _, _⟩ := C10_failed_poll_aborts scripted 5 exApi "Account" ""
    [exAccount] exFailedNet _ (Or.inl rfl)
  have hevs : evs
      = (BulkInsertSObjects scripted 5 exApi "Account" [exAccount] exFailedNet).2.log := by
    rw [hlog]; rfl
  subst hevs
  refine ⟨by decide, ?_⟩
  exact h1 ⟨Caller.getBatchStatus, getBatchStatusReq "750x" "751x",
      Reply.batch (exBatch "Failed") none⟩ (by decide) rfl (exBatch "Failed") rfl rfl

theorem pollLoop_completes {W : Type} (E : Executor W) (jobID batchID : String) :
    ∀ (sts : List CreateBatchResponse) (res : CreateBatchResponse)
      (pre : List CreateBatchResponse) (fin : CreateBatchResponse) (fuel : Nat)
      (net : Net W) (w3 : W),
      res :: sts = pre ++ [fin] →
      (∀ r ∈ pre, r.State ≠ "Completed" ∧ r.State ≠ "Failed") →
      fin.State = "Completed" →
      statusReplies E (getBatchStatusReq jobID batchID) sts net.world w3 →
      sts.length ≤ fuel →
      (pollLoop E jobID batchID fuel res net).1 = some (Except.ok fin)
        ∧ (pollLoop E jobID batchID fuel res net).2.world = w3 := by
  intro sts
  induction sts with
  | nil =>
    intro res pre fin fuel net w3 hobs _ hfin hrep _
    have hpre : pre = [] ∧ res = fin := by
      cases pre with
      | nil => simpa using hobs
      | cons p ps =>
        have hlen := congrArg List.length hobs
        simp at hlen
    obtain ⟨_, rfl⟩ := hpre
    simp only [statusReplies] at hrep
    subst hrep
    cases fuel <;> simp [pollLoop, hfin]
  | cons r rest ih =>
    intro res pre fin fuel net w3 hobs hpre hfin hrep hfuel
    cases pre with
    | nil =>
      have hlen := congrArg List.length hobs
      simp at hlen
    | cons p ps =>
      simp only [List.cons_append, List.cons.injEq] at hobs
      obtain ⟨rfl, hrest⟩ := hobs
      have hres := hpre res (List.mem_cons_self _ _)
      obtain ⟨w1, hbatch, hrep2⟩ := hrep
      have hrF : r.State ≠ "Failed" := by
        cases ps with
        | nil =>
          simp only [List.nil_append, List.cons.injEq] at hrest
          rw [hrest.1, hfin]
          decide
        | cons q qs =>
          simp only [List.cons_append, List.cons.injEq] at hrest
          rw [hrest.1]
          exact (hpre q (by simp)).2
      cases fuel with
      | zero => simp at hfuel
      | succ n =>
        have hstep : pollLoop E jobID batchID (n + 1) res net
            = pollLoop E jobID batchID n r
                ⟨w1, net.log ++ [⟨Caller.getBatchStatus, getBatchStatusReq jobID batchID,
                  Reply.batch r none⟩]⟩ := by
          simp [pollLoop, hres.1, getBatchStatus, orError, invoke, hbatch, hrF]
        rw [hstep]
        exact ih r ps fin n _ w3 hrest (fun x hx => hpre x (List.mem_cons_of_mem _ hx)) hfin
          hrep2 (by simpa using hfuel)

/-- C8: for a known table, when createJob and the batch submission succeed,
the batch responses seen (the submission response, then the status polls)
are finitely many responses whose state is neither Completed nor Failed
followed by one whose state is Completed, and getBatchResults succeeds, then
BulkInsertSObjects, given fuel for these polls, returns exactly the list
getBatchResults produced, with a nil error.  Nothing is assumed about what
closeJob answers, so the result is the same whether closeJob succeeds or
fails. -/
theorem C8_completed_returns_results {W : Type} (E : Executor W) (fuel : Nat)
    (forceApi : ForceApi) (table : String) (inp : List SObject) (net : Net W)
    (md : SObjectMetaData) (job : CreateJobResponse) (b0 fin : CreateBatchResponse)
    (sts pre : List CreateBatchResponse) (results : List SObjectResponse) (w1 w2 w3 w4 : W)
    (htable : mapIndex forceApi.apiSObjects table = some md)
    (hjob : E.job (createJobReq table "insert" "JSON") net.world = ((job, none), w1))
    (hsub : E.batch (createInsertBatchReq job.ID inp) w1 = ((b0, none), w2))
    (hpoll : statusReplies E (getBatchStatusReq job.ID b0.ID) sts w2 w3)
    (hobs : b0 :: sts = pre ++ [fin])
    (hpre : ∀ r ∈ pre, r.State ≠ "Completed" ∧ r.State ≠ "Failed")
    (hfin : fin.State = "Completed")
    (hres : E.results (getBatchResultsReq job.ID b0.ID) w3 = ((results, none), w4))
    (hfuel : sts.length ≤ fuel) :
    (BulkInsertSObjects E fuel forceApi table inp net).1 = some (some results, none) := by
  have hloop := pollLoop_completes E job.ID b0.ID sts b0 pre fin fuel
    ⟨w2, net.log ++ [⟨Caller.createJob, createJobReq table "insert" "JSON",
        Reply.job job none⟩,
      ⟨Caller.createInsertBatch, createInsertBatchReq job.ID inp, Reply.batch b0 none⟩]⟩
    w3 hobs hpre hfin hpoll hfuel
  rcases hpl : pollLoop E job.ID b0.ID fuel b0
    ⟨w2, net.log ++ [⟨Caller.createJob, createJobReq table "insert" "JSON",
        Reply.job job none⟩,
      ⟨Caller.createInsertBatch, createInsertBatchReq job.ID inp, Reply.batch b0 none⟩]⟩
    with ⟨out, netp⟩
  rw [hpl] at hloop
  obtain ⟨hout, hworld⟩ := hloop
  simp only at hout hworld
  subst hout
  simp [BulkInsertSObjects, htable, createJob, createInsertBatch, orError, invoke, hjob, hsub,
    afterSubmit, hpl, hfin, getBatchResults, hworld, hres, deferCloseJob]

/-- The lifecycle Queued, InProgress, InProgress, Completed returns the two
fetched results, the rejected record included, when closeJob succeeds and
when closeJob fails. -/
theorem C8_completed_returns_results_witness :
    (BulkInsertSObjects scripted 3 exApi "Account" [exAccount] (exLifecycleNet none)).1
        = some (some exResults, none)
    ∧ (BulkInsertSObjects scripted 3 exApi "Account" [exAccount]
          (exLifecycleNet (some ⟨"close failed"⟩))).1
        = some (some exResults, none) :=
  ⟨C8_completed_returns_results scripted 3 exApi "Account" [exAccount] (exLifecycleNet none)
      exAccountMeta exJob (exBatch "Queued") (exBatch "Completed")
      [exBatch "InProgress", exBatch "InProgress", exBatch "Completed"]
      [exBatch "Queued", exBatch "InProgress", exBatch "InProgress"] exResults
      _ _ _ _ (by decide) rfl rfl ⟨_, rfl, _, rfl, _, rfl, rfl⟩ rfl (by decide) (by decide)
      rfl (by decide),
    C8_completed_returns_results scripted 3 exApi "Account" [exAccount]
      (exLifecycleNet (some ⟨"close failed"⟩))
      exAccountMeta exJob (exBatch "Queued") (exBatch "Completed")
      [exBatch "InProgress", exBatch "InProgress", exBatch "Completed"]
      [exBatch "Queued", exBatch "InProgress", exBatch "InProgress"] exResults
      _ _ _ _ (by decide) rfl rfl ⟨_, rfl, _, rfl, _, rfl, rfl⟩ rfl (by decide) (by decide)
      rfl (by decide)⟩

/-! ## Credentials, discovery and the row template -/

theorem utf8ByteSize_go_pos (c : Char) (cs : List Char) :
    0 < String.utf8ByteSize.go (c :: cs) := by
  have hc : 0 < c.utf8Size := Char.utf8Size_pos c
  simp only [String.utf8ByteSize.go]
  omega

theorem utf8ByteSize_eq_zero (s : String) : s.utf8ByteSize = 0 ↔ s = "" := by
  cases s with
  | mk data =>
    cases data with
    | nil => simp [String.utf8ByteSize, String.utf8ByteSize.go]
    | cons c cs =>
      have hpos := utf8ByteSize_go_pos c cs
      constructor
      · intro h
        simp only [String.utf8ByteSize] at h
        omega
      · intro h
        have := congrArg String.data h
        simp at this

/-- C11: Validate returns the nil error exactly when the receiver is not nil
and both InstanceUrl and AccessToken are non-empty; it returns an error for a
nil receiver, for an empty InstanceUrl and for an empty AccessToken; and it
leaves the receiver as it found it. -/
theorem C11_Validate_iff (goSyntax : Option ForceOauth → String)
    (oauth : Option ForceOauth) :
    ((Validate goSyntax oauth).1 = none ↔
        ∃ o, oauth = some o ∧ o.InstanceUrl ≠ "" ∧ o.AccessToken ≠ "")
    ∧ (Validate goSyntax none).1 ≠ none
    ∧ (∀ o, o.InstanceUrl = "" → (Validate goSyntax (some o)).1 ≠ none)
    ∧ (∀ o, o.AccessToken = "" → (Validate goSyntax (some o)).1 ≠ none)
    ∧ (Validate goSyntax oauth).2 = oauth := by
  have hsome : ∀ o : ForceOauth, ((Validate goSyntax (some o)).1 = none ↔
      o.InstanceUrl ≠ "" ∧ o.AccessToken ≠ "") := by
    intro o
    have h0 : ("" : String).utf8ByteSize = 0 := (utf8ByteSize_eq_zero "").mpr rfl
    by_cases h1 : o.InstanceUrl = ""
    · simp [Validate, h1, h0]
    · by_cases h2 : o.AccessToken = ""
      · simp [Validate, h2, h0]
      · have h1b : o.InstanceUrl.utf8ByteSize ≠ 0 := fun h => h1 ((utf8ByteSize_eq_zero _).mp h)
        have h2b : o.AccessToken.utf8ByteSize ≠ 0 := fun h => h2 ((utf8ByteSize_eq_zero _).mp h)
        simp [Validate, h1, h2, h1b, h2b]
  refine ⟨?_, by simp [Validate], ?_, ?_, ?_⟩
  · cases oauth with
    | none => simp [Validate]
    | some o => simpa using hsome o
  · intro o h hv
    exact ((hsome o).mp hv).1 h
  · intro o h hv
    exact ((hsome o).mp hv).2 h
  · cases oauth with
    | none => rfl
    | some o =>
      simp only [Validate]
      split <;> rfl

theorem lookup_filter_ne {V : Type} (m : GoMap V) (k k2 : String) (h : k2 ≠ k) :
    List.lookup k2 (m.filter (fun p => p.1 != k)) = List.lookup k2 m := by
  induction m with
  | nil => rfl
  | cons p rest ih =>
    obtain ⟨a, v⟩ := p
    by_cases ha : a = k
    · subst ha
      have hne : (k2 == a) = false := by simpa using h
      simp [List.filter_cons, List.lookup_cons, hne, ih]
    · have hb : (a != k) = true := by simpa using ha
      simp only [List.filter_cons, hb, ↓reduceIte, List.lookup_cons, ih]

theorem mapIndex_mapStore {V : Type} (m : GoMap V) (k k2 : String) (v : V) :
    mapIndex (mapStore m k v) k2 = if k2 = k then some v else mapIndex m k2 := by
  by_cases h : k2 = k
  · subst h
    simp [mapIndex, mapStore, List.lookup]
  · have hne : (k2 == k) = false := by simpa using h
    simp [mapIndex, mapStore, List.lookup_cons, hne, h, lookup_filter_ne m k k2 h]

theorem lastNamed_cons (object : SObjectMetaData) (rest : List SObjectMetaData)
    (name : String) :
    lastNamed (object :: rest) name
      = match lastNamed rest name with
        | some x => some x
        | none => if object.Name = name then some object else none := by
  simp only [lastNamed, List.reverse_cons, List.find?_append]
  cases h : rest.reverse.find? (fun object => object.Name == name) with
  | some x => simp
  | none =>
    by_cases hn : object.Name = name
    · simp [List.find?, hn]
    · have hb : (object.Name == name) = false := by simpa using hn
      simp [List.find?, hn, hb]

theorem mapIndex_indexSObjects (objects : List SObjectMetaData) :
    ∀ (table : GoMap SObjectMetaData) (name : String),
      mapIndex (indexSObjects table objects) name
        = match lastNamed objects name with
          | some x => some x
          | none => mapIndex table name := by
  induction objects with
  | nil => intro table name; rfl
  | cons object rest ih =>
    intro table name
    have hstep : indexSObjects table (object :: rest)
        = indexSObjects (mapStore table object.Name object) rest := rfl
    rw [hstep, ih, lastNamed_cons]
    cases lastNamed rest name with
    | some x => rfl
    | none =>
      simp only [mapIndex_mapStore]
      by_cases hn : object.Name = name
      · simp [hn]
      · have hn2 : ¬ name = object.Name := fun h => hn h.symm
        simp [hn, hn2]

theorem lastNamed_of_mem (objects : List SObjectMetaData) (object : SObjectMetaData)
    (h : object ∈ objects) :
    ∃ o2 ∈ objects, o2.Name = object.Name ∧ lastNamed objects object.Name = some o2 := by
  have hex : ∃ x ∈ objects.reverse, (fun o : SObjectMetaData => o.Name == object.Name) x = true :=
    ⟨object, List.mem_reverse.mpr h, by simp⟩
  cases hf : objects.reverse.find? (fun o => o.Name == object.Name) with
  | none =>
    rw [List.find?_eq_none] at hf
    obtain ⟨x, hx, hp⟩ := hex
    exact absurd hp (hf x hx)
  | some o2 =>
    have hmem := List.mem_of_find?_eq_some hf
    have hp := List.find?_some hf
    exact ⟨o2, List.mem_reverse.mp hmem, by simpa using hp, hf⟩

theorem lastNamed_none (objects : List SObjectMetaData) (name : String)
    (h : ∀ object ∈ objects, object.Name ≠ name) : lastNamed objects name = none := by
  simp only [lastNamed, List.find?_eq_none]
  intro x hx
  simpa using h x (List.mem_reverse.mp hx)

/-- C15: when the fetch of getApiSObjects succeeds with a response list, the
call returns the nil error, apiMaxBatchSize is the MaxBatchSize of the
response, every name of the response is mapped by the object table to the
last entry of the response that carries that name, and names that do not
occur in the response keep the entry they had.  When the fetch fails, the
error is returned and the client is left unchanged. -/
theorem C15_getApiSObjects_indexes_response {W : Type} (E : Executor W) (forceApi : ForceApi)
    (net : Net W) :
    (∀ list w2,
        E.objects (getReq (mapIndexString forceApi.apiResources "sobjects") []) net.world
          = ((list, none), w2) →
        (getApiSObjects E forceApi net).1 = none
        ∧ (getApiSObjects E forceApi net).2.1.apiMaxBatchSize = list.MaxBatchSize
        ∧ (∀ object ∈ list.SObjects, ∃ o2 ∈ list.SObjects, o2.Name = object.Name
            ∧ lastNamed list.SObjects object.Name = some o2
            ∧ mapIndex (getApiSObjects E forceApi net).2.1.apiSObjects object.Name = some o2)
        ∧ (∀ name, (∀ object ∈ list.SObjects, object.Name ≠ name) →
            mapIndex (getApiSObjects E forceApi net).2.1.apiSObjects name
              = mapIndex forceApi.apiSObjects name))
    ∧ (∀ list err w2,
        E.objects (getReq (mapIndexString forceApi.apiResources "sobjects") []) net.world
          = ((list, some err), w2) →
        (getApiSObjects E forceApi net).1 = some err
        ∧ (getApiSObjects E forceApi net).2.1 = forceApi) := by
  refine ⟨?_, ?_⟩
  · intro list w2 h
    have hrun : getApiSObjects E forceApi net
        = (none,
            { forceApi with
              apiMaxBatchSize := list.MaxBatchSize
              apiSObjects := indexSObjects forceApi.apiSObjects list.SObjects },
            ⟨w2, net.log ++ [⟨Caller.getApiSObjects,
              getReq (mapIndexString forceApi.apiResources "sobjects") [],
              Reply.objects list none⟩]⟩) := by
      simp [getApiSObjects, invoke, sObjectsKey, h]
    rw [hrun]
    refine ⟨rfl, rfl, ?_, ?_⟩
    · intro object hmem
      obtain ⟨o2, ho2, hname, hlast⟩ := lastNamed_of_mem list.SObjects object hmem
      refine ⟨o2, ho2, hname, hlast, ?_⟩
      simp only [mapIndex_indexSObjects, hlast]
    · intro name hnone
      simp only [mapIndex_indexSObjects, lastNamed_none list.SObjects name hnone]
  · intro list err w2 h
    simp [getApiSObjects, invoke, sObjectsKey, h]

/-- The platform lists Account and Contact with batch size 200: the client
that had no object now maps both names, and its batch size is 200. -/
theorem C15_getApiSObjects_witness :
    (getApiSObjects scripted exFreshApi exObjectsNet).1 = none
    ∧ (getApiSObjects scripted exFreshApi exObjectsNet).2.1.apiMaxBatchSize = 200
    ∧ mapIndex (getApiSObjects scripted exFreshApi exObjectsNet).2.1.apiSObjects "Account"
        = some exAccountMeta
    ∧ mapIndex (getApiSObjects scripted exFreshApi exObjectsNet).2.1.apiSObjects "Contact"
        = some exContactMeta := by
  obtain ⟨h1, h2, h3, _⟩ :=
    (C15_getApiSObjects_indexes_response scripted exFreshApi exObjectsNet).1
      ⟨"UTF-8", 200, [exAccountMeta, exContactMeta]⟩ _ rfl
  refine ⟨h1, h2, ?_, ?_⟩
  · obtain ⟨o2, _, _, hlast, hidx⟩ := h3 exAccountMeta (by decide)
    have : o2 = exAccountMeta := by
      have hl : lastNamed [exAccountMeta, exContactMeta] exAccountMeta.Name
          = some exAccountMeta := by decide
      exact (Option.some.inj (hlast.symm.trans hl))
    rw [← this]; exact hidx
  · obtain ⟨o2, _, _, hlast, hidx⟩ := h3 exContactMeta (by decide)
    have : o2 = exContactMeta := by
      have hl : lastNamed [exAccountMeta, exContactMeta] exContactMeta.Name
          = some exContactMeta := by decide
      exact (Option.some.inj (hlast.symm.trans hl))
    rw [← this]; exact hidx

theorem replaceFirstChars_first (old new : List Char) (hold : old ≠ []) :
    ∀ (s pre post : List Char), s = pre ++ old ++ post →
      (∀ pre2 post2, s = pre2 ++ old ++ post2 → pre.length ≤ pre2.length) →
      replaceFirstChars old new s = pre ++ new ++ post := by
  intro s
  induction s with
  | nil =>
    intro pre post hs _
    have hlen := congrArg List.length hs
    simp only [List.length_nil, List.length_append] at hlen
    have : old.length = 0 := by omega
    exact absurd (List.length_eq_zero.mp this) hold
  | cons c cs ih =>
    intro pre post hs hfirst
    by_cases hp : old.isPrefixOf (c :: cs) = true
    · obtain ⟨t, ht⟩ := List.isPrefixOf_iff_prefix.mp hp
      have h0 : pre.length ≤ ([] : List Char).length :=
        hfirst [] t (by simpa using ht.symm)
      have hpre : pre = [] := List.length_eq_zero.mp (by simpa using h0)
      subst hpre
      simp only [List.nil_append] at hs
      have hgoal : replaceFirstChars old new (c :: cs)
          = new ++ (c :: cs).drop old.length := by
        simp only [replaceFirstChars, hp, ↓reduceIte]
      rw [hgoal, hs, List.drop_left, List.nil_append]
    · have hpre : pre ≠ [] := by
        intro h
        subst h
        apply hp
        exact List.isPrefixOf_iff_prefix.mpr ⟨post, by simpa using hs.symm⟩
      obtain ⟨p, ps, rfl⟩ := List.exists_cons_of_ne_nil hpre
      simp only [List.cons_append, List.cons.injEq] at hs
      obtain ⟨rfl, hcs⟩ := hs
      have hrec := ih ps post (by simpa using hcs) (by
        intro pre2 post2 h2
        have := hfirst (c :: pre2) post2 (by simp [h2])
        simpa using this)
      simp only [replaceFirstChars, hp, Bool.false_eq_true, ↓reduceIte, hrec,
        List.cons_append]

theorem replaceFirstChars_absent (old new : List Char) :
    ∀ (s : List Char), (∀ pre post, s ≠ pre ++ old ++ post) →
      replaceFirstChars old new s = s := by
  intro s
  induction s with
  | nil =>
    intro h
    have hold : old ≠ [] := fun he => h [] [] (by simp [he])
    simp [replaceFirstChars, hold]
  | cons c cs ih =>
    intro h
    have hp : ¬ old.isPrefixOf (c :: cs) = true := by
      intro hp
      obtain ⟨t, ht⟩ := List.isPrefixOf_iff_prefix.mp hp
      exact h [] t (by simpa using ht.symm)
    have hrec := ih (fun pre post hcs => h (c :: pre) post (by simp [hcs]))
    simp only [replaceFirstChars, hp, Bool.false_eq_true, ↓reduceIte, hrec]

theorem stringsReplaceFirst_first (s old new pre post : String) (hold : old ≠ "")
    (hs : s = pre ++ old ++ post)
    (hfirst : ∀ pre2 post2 : String, s = pre2 ++ old ++ post2 → pre.length ≤ pre2.length) :
    stringsReplaceFirst s old new = pre ++ new ++ post := by
  apply String.ext
  simp only [stringsReplaceFirst, String.data_append]
  apply replaceFirstChars_first
  · intro h
    exact hold (String.ext h)
  · rw [hs]; simp only [String.data_append]
  · intro pre2 post2 h2
    have := hfirst ⟨pre2⟩ ⟨post2⟩ (String.ext (by simpa only [String.data_append] using h2))
    exact this

theorem stringsReplaceFirst_absent (s old new : String)
    (h : ∀ pre post : String, s ≠ pre ++ old ++ post) :
    stringsReplaceFirst s old new = s := by
  apply String.ext
  simp only [stringsReplaceFirst]
  apply replaceFirstChars_absent
  intro pre post hs
  exact h ⟨pre⟩ ⟨post⟩ (String.ext (by simpa only [String.data_append] using hs))

/-- C14: for a record whose ApiName is in the object table, GetSObject,
UpdateSObject and DeleteSObject each make exactly one executor call, with
verb GET, PATCH (the record as body) and DELETE, on the row-template URL of
the object in which the first occurrence of the placeholder is replaced by
the record id: everything before and after that occurrence is kept, and a
template without the placeholder is passed as it is.  GetSObject passes the
single parameter fields, the names joined with a comma, when the list is not
empty and no parameter when it is; the other two pass none. -/
theorem C14_row_template_url {W : Type} (E : Executor W) (forceApi : ForceApi) (id : String)
    (fields : List String) (rec : SObject) (net : Net W) (md : SObjectMetaData)
    (htable : mapIndex forceApi.apiSObjects rec.ApiName = some md) :
    (∃ reply,
        (GetSObject E forceApi id fields rec net).2.log = net.log ++
          [⟨Caller.GetSObject,
            getReq (stringsReplaceFirst (mapIndexString md.URLs "rowTemplate") "\x7bID\x7d" id)
              (if fields = [] then [] else [("fields", [stringsJoin fields ","])]), reply⟩])
    ∧ (∃ reply,
        (UpdateSObject E forceApi id rec net).2.log = net.log ++
          [⟨Caller.UpdateSObject,
            patchReq (stringsReplaceFirst (mapIndexString md.URLs "rowTemplate") "\x7bID\x7d" id)
              [] (Payload.record rec), reply⟩])
    ∧ (∃ reply,
        (DeleteSObject E forceApi id rec net).2.log = net.log ++
          [⟨Caller.DeleteSObject,
            deleteReq (stringsReplaceFirst (mapIndexString md.URLs "rowTemplate") "\x7bID\x7d" id)
              [], reply⟩])
    ∧ (∀ pre post : String, mapIndexString md.URLs "rowTemplate" = pre ++ "\x7bID\x7d" ++ post →
        (∀ pre2 post2 : String,
          mapIndexString md.URLs "rowTemplate" = pre2 ++ "\x7bID\x7d" ++ post2 →
          pre.length ≤ pre2.length) →
        stringsReplaceFirst (mapIndexString md.URLs "rowTemplate") "\x7bID\x7d" id
          = pre ++ id ++ post)
    ∧ ((∀ pre post : String, mapIndexString md.URLs "rowTemplate" ≠ pre ++ "\x7bID\x7d" ++ post) →
        stringsReplaceFirst (mapIndexString md.URLs "rowTemplate") "\x7bID\x7d" id
          = mapIndexString md.URLs "rowTemplate") := by
  have hparams : fieldsParams fields
      = if fields = [] then [] else [("fields", [stringsJoin fields ","])] := by
    cases fields with
    | nil => rfl
    | cons a rest => simp [fieldsParams]
  refine ⟨?_, ?_, ?_, ?_, ?_⟩
  · simp only [GetSObject, htable, invoke, rowTemplateKey, idKey, hparams]
    exact ⟨_, rfl⟩
  · simp only [UpdateSObject, htable, invoke, rowTemplateKey, idKey]
    exact ⟨_, rfl⟩
  · simp only [DeleteSObject, htable, invoke, rowTemplateKey, idKey]
    exact ⟨_, rfl⟩
  · intro pre post hs hfirst
    exact stringsReplaceFirst_first _ _ id pre post (by decide) hs hfirst
  · intro h
    exact stringsReplaceFirst_absent _ _ id h

/-- The row template of Account with the id 001A and the fields Id and Name:
the three paths are the template with the id in place of the placeholder,
and GetSObject passes fields=Id,Name. -/
theorem C14_row_template_url_witness :
    mapIndex exApi.apiSObjects exAccount.ApiName = some exAccountMeta
    ∧ (GetSObject scripted exApi "001A" ["Id", "Name"] exAccount ⟨[], []⟩).2.log.map
        (fun e => (e.req.verb, e.req.path, e.req.params))
        = [("GET", "/services/data/v37.0/sobjects/Account/001A", [("fields", ["Id,Name"])])]
    ∧ (UpdateSObject scripted exApi "001A" exAccount ⟨[], []⟩).2.log.map
        (fun e => (e.req.verb, e.req.path, e.req.params))
        = [("PATCH", "/services/data/v37.0/sobjects/Account/001A", [])]
    ∧ (DeleteSObject scripted exApi "001A" exAccount ⟨[], []⟩).2.log.map
        (fun e => (e.req.verb, e.req.path, e.req.params))
        = [("DELETE", "/services/data/v37.0/sobjects/Account/001A", [])] := by
  obtain ⟨⟨r1, h1⟩, ⟨r2, h2⟩, ⟨r3, h3⟩, _, _⟩ :=
    C14_row_template_url scripted exApi "001A" ["Id", "Name"] exAccount ⟨[], []⟩
      exAccountMeta (by decide)
  refine ⟨by decide, ?_, ?_, ?_⟩
  · rw [h1]; rfl
  · rw [h2]; rfl
  · rw [h3]; rfl

/-- C12, as stated, fails: the second call of getApiVersions on the same
client makes a second executor call, and the cached list after it is the
second answer of the platform, not the first; the second call of
getApiSObjects makes a second call as well. -/
theorem C12_second_discovery_fetches_again :
    exVersionsFirst.2.2.log.map (fun e => e.caller) = [Caller.getApiVersions]
    ∧ exVersionsSecond.2.2.log.map (fun e => e.caller)
        = [Caller.getApiVersions, Caller.getApiVersions]
    ∧ exVersionsFirst.2.1.apiVersions = [exVersion37]
    ∧ exVersionsSecond.2.1.apiVersions = [exVersion37, exVersion38]
    ∧ exObjectsSecond.2.2.log.map (fun e => e.caller)
        = [Caller.getApiSObjects, Caller.getApiSObjects] := by
  refine ⟨by decide, by decide, by decide, by decide, by decide⟩

/-- C12, amended: every call of getApiVersions, getApiResources and
getApiSObjects makes exactly one executor call, whatever the client already
holds, so also the second call on the same client; and when the second fetch
gives what the first gave, the client after the second call holds the same
versions, the same resources, the same batch size and, under every name,
the same object as after the first. -/
theorem C12_discovery_one_fetch_per_call {W : Type} (E : Executor W) (forceApi : ForceApi)
    (net : Net W) :
    (∃ ev, (getApiVersions E forceApi net).2.2.log = net.log ++ [ev]
        ∧ ev.caller = Caller.getApiVersions ∧ ev.req = getReq "/services/data" [])
    ∧ (∃ ev, (getApiResources E forceApi net).2.2.log = net.log ++ [ev]
        ∧ ev.caller = Caller.getApiResources
        ∧ ev.req = getReq ("/services/data/" ++ forceApi.apiVersion ++ "/") [])
    ∧ (∃ ev, (getApiSObjects E forceApi net).2.2.log = net.log ++ [ev]
        ∧ ev.caller = Caller.getApiSObjects
        ∧ ev.req = getReq (mapIndexString forceApi.apiResources "sobjects") [])
    ∧ (∀ vs e1 e2 w1 w2,
        E.versions (getReq "/services/data" []) forceApi.apiVersions net.world
          = ((vs, e1), w1) →
        E.versions (getReq "/services/data" []) vs w1 = ((vs, e2), w2) →
        (getApiVersions E (getApiVersions E forceApi net).2.1
            (getApiVersions E forceApi net).2.2).2.1
          = (getApiVersions E forceApi net).2.1)
    ∧ (∀ m e1 e2 w1 w2,
        E.resources (getReq ("/services/data/" ++ forceApi.apiVersion ++ "/") [])
          forceApi.apiResources net.world = ((m, e1), w1) →
        E.resources (getReq ("/services/data/" ++ forceApi.apiVersion ++ "/") []) m w1
          = ((m, e2), w2) →
        (getApiResources E (getApiResources E forceApi net).2.1
            (getApiResources E forceApi net).2.2).2.1
          = (getApiResources E forceApi net).2.1)
    ∧ (∀ list w1 w2,
        E.objects (getReq (mapIndexString forceApi.apiResources "sobjects") []) net.world
          = ((list, none), w1) →
        E.objects (getReq (mapIndexString forceApi.apiResources "sobjects") []) w1
          = ((list, none), w2) →
        (getApiSObjects E (getApiSObjects E forceApi net).2.1
            (getApiSObjects E forceApi net).2.2).2.1.apiMaxBatchSize
          = (getApiSObjects E forceApi net).2.1.apiMaxBatchSize
        ∧ ∀ name,
          mapIndex (getApiSObjects E (getApiSObjects E forceApi net).2.1
              (getApiSObjects E forceApi net).2.2).2.1.apiSObjects name
            = mapIndex (getApiSObjects E forceApi net).2.1.apiSObjects name) := by
  refine ⟨?_, ?_, ?_, ?_, ?_, ?_⟩
  · exact ⟨_, rfl, rfl, rfl⟩
  · exact ⟨_, rfl, rfl, rfl⟩
  · rcases h : E.objects (getReq (mapIndexString forceApi.apiResources "sobjects") [])
        net.world with ⟨⟨list, err⟩, w⟩
    refine ⟨⟨Caller.getApiSObjects,
      getReq (mapIndexString forceApi.apiResources "sobjects") [],
      Reply.objects list err⟩, ?_, rfl, rfl⟩
    cases err with
    | none => simp [getApiSObjects, invoke, h, sObjectsKey]
    | some e => simp [getApiSObjects, invoke, h, sObjectsKey]
  · intro vs e1 e2 w1 w2 h1 h2
    have hv : versionsUri = "/services/data" := rfl
    simp [getApiVersions, invoke, hv, h1, h2]
  · intro m e1 e2 w1 w2 h1 h2
    have hr : resourcesUri forceApi.apiVersion
        = "/services/data/" ++ forceApi.apiVersion ++ "/" := rfl
    simp [getApiResources, invoke, hr, h1, h2]
  · intro list w1 w2 h1 h2
    have hk : sObjectsKey = "sobjects" := rfl
    have hfirst : getApiSObjects E forceApi net
        = (none,
            { forceApi with
              apiMaxBatchSize := list.MaxBatchSize
              apiSObjects := indexSObjects forceApi.apiSObjects list.SObjects },
            ⟨w1, net.log ++ [⟨Caller.getApiSObjects,
              getReq (mapIndexString forceApi.apiResources "sobjects") [],
              Reply.objects list none⟩]⟩) := by
      simp [getApiSObjects, invoke, hk, h1]
    rw [hfirst]
    refine ⟨?_, ?_⟩
    · simp [getApiSObjects, invoke, hk, h2]
    · intro name
      simp only [getApiSObjects, invoke, hk, h2, mapIndex_indexSObjects]
      cases lastNamed list.SObjects name <;> rfl

/-- C13: GetApiSObjectDescription and getApiSObjectDescriptions put the
fetched description of Account into the cache with an empty AllFields, where
the derived list is "Id, Name"; DescribeSObject then returns that cached
entry, empty AllFields included.  DescribeSObject itself caches a string
that is not the derived list when the first field has type location. -/
theorem C13_cache_entry_without_derived_list :
    cacheInvariant exApi.apiSObjectDescriptions = true
    ∧ derivedAllFields exAccountDescription = "Id, Name"
    ∧ exAfterGetDescription.1 = (some { exAccountDescription with AllFields := "" }, none)
    ∧ cacheInvariant exAfterGetDescription.2.1.apiSObjectDescriptions = false
    ∧ cacheInvariant
        (getApiSObjectDescriptions scripted exApi exDescribeNet).2.1.apiSObjectDescriptions
      = false
    ∧ (DescribeSObject scripted exAfterGetDescription.2.1 exAccount
          exAfterGetDescription.2.2).1
        = (some { exAccountDescription with AllFields := "" }, none)
    ∧ cacheInvariant
        (DescribeSObject scripted exApi exAccount
          ⟨[Reply.description exLocationFirst none], []⟩).2.1.apiSObjectDescriptions
      = false := by
  refine ⟨by decide, by decide, by decide, by decide, by decide, by decide, by decide⟩

/-- The credentials of the example client validate, and the nil receiver
does not. -/
theorem C11_Validate_witness :
    (Validate exGoSyntax (some exOauth)).1 = none
    ∧ (Validate exGoSyntax none).1 ≠ none
    ∧ (Validate exGoSyntax (some exOauth)).2 = some exOauth :=
  ⟨(C11_Validate_iff exGoSyntax (some exOauth)).1.mpr ⟨exOauth, rfl, by decide, by decide⟩,
    (C11_Validate_iff exGoSyntax none).2.1,
    (C11_Validate_iff exGoSyntax (some exOauth)).2.2.2.2⟩

/-- The platform gives the same object list twice: after the second call the
client holds the same batch size and the same object under every name. -/
theorem C12_discovery_witness :
    exObjectsSecond.2.1.apiMaxBatchSize = exObjectsFirst.2.1.apiMaxBatchSize
    ∧ ∀ name, mapIndex exObjectsSecond.2.1.apiSObjects name
        = mapIndex exObjectsFirst.2.1.apiSObjects name :=
  (C12_discovery_one_fetch_per_call scripted exFreshApi exObjectsNet).2.2.2.2.2
    ⟨"UTF-8", 200, [exAccountMeta, exContactMeta]⟩ _ _ rfl rfl

theorem computeAllFields_fields (resp : SObjectDescription) :
    (computeAllFields resp).Fields = resp.Fields := by
  simp only [computeAllFields]
  split <;> rfl

theorem computeAllFields_derived (d : SObjectDescription)
    (hfirst : ∀ f rest, d.Fields = f :: rest → f.Type_ ≠ "location") :
    (computeAllFields (decoded d)).AllFields
      = derivedAllFields (computeAllFields (decoded d)) := by
  have hfields : (decoded d).Fields = d.Fields := rfl
  simp only [derivedAllFields, computeAllFields_fields, hfields]
  cases hd : d.Fields with
  | nil =>
    have h0 : (computeAllFields (decoded d)).AllFields = "" := by
      simp [computeAllFields, hfields, hd, decoded]
    rw [h0]
    rfl
  | cons f rest =>
    have h := computeAllFields_first_kept (decoded d) f rest (hfields.trans hd)
      (hfirst f rest hd)
    rw [h, hfields, hd]

theorem cacheInvariant_mapStore (cache : GoMap SObjectDescription) (k : String)
    (d : SObjectDescription) (h : cacheInvariant cache = true)
    (hd : d.AllFields = derivedAllFields d) :
    cacheInvariant (mapStore cache k d) = true := by
  simp only [cacheInvariant, List.all_eq_true, beq_iff_eq] at h
  simp only [cacheInvariant, mapStore, List.all_cons, Bool.and_eq_true, beq_iff_eq,
    List.all_eq_true]
  refine ⟨hd, ?_⟩
  intro entry hmem
  exact h entry (List.mem_of_mem_filter hmem)

/-- DescribeSObject keeps the invariant of the description cache whenever
the description it fetches does not start with a field of type location. -/
theorem DescribeSObject_keeps_invariant {W : Type} (E : Executor W) (forceApi : ForceApi)
    (inp : SObject) (net : Net W)
    (hinv : cacheInvariant forceApi.apiSObjectDescriptions = true)
    (hfirst : ∀ req f rest, (E.description req net.world).1.1.Fields = f :: rest →
      f.Type_ ≠ "location") :
    cacheInvariant (DescribeSObject E forceApi inp net).2.1.apiSObjectDescriptions = true := by
  unfold DescribeSObject
  split
  · exact hinv
  · split
    · exact hinv
    · simp only [invoke]
      split
      · exact hinv
      · exact cacheInvariant_mapStore _ _ _ hinv (computeAllFields_derived _ (hfirst _))

end GoForce
